import Mathlib

/-!
Verification of the video-download orchestration pipeline of this repository.

The repository is a Supabase/Deno video-download service.  The relevant
edge-function code lives in `supabase/functions/download-video/index.ts`
(several historical iterations concatenated) and in the unnamed source parts
(notably `part_004`, the "enhanced" pipeline, and `part_002`, the rate-limited
monitor).  Pure computations (command building, progress folding, signature
checking, file location) are embedded directly.  Effectful code (database
updates, subprocess spawns, storage uploads, file deletion) is embedded as
functions from an oracle of external outcomes to a trace of effects, mirroring
the control flow of the TypeScript statement by statement.  Machine reals
(JS numbers holding progress percentages) are modelled as rationals; clock
values as naturals (milliseconds).
-/

namespace DL

/-- Job status enum persisted in the `download_jobs` table. -/
inductive JobStatus
  | pending
  | downloading
  | completed
  | failed
deriving DecidableEq, BEq, Repr

/-- One `supabase.from('download_jobs').update({...})` call: only the fields
the claims mention are modelled (speed / eta / file_size strings are
presentation-only and carry no invariant).  A field that the update object
does not mention is `none`. -/
structure JobUpdate where
  status : Option JobStatus := none
  progress : Option ℚ := none
  error_message : Option String := none
  download_url : Option String := none
deriving DecidableEq, BEq, Repr

/-- External effects performed by the pipeline, in program order. -/
inductive Effect
  | update (u : JobUpdate)
  | spawn (args : List String)
  | uploadFile (key : String)
  | signUrl (key : String)
  | deleteFile (path : String)
deriving DecidableEq, BEq, Repr

/-- Decidable list membership from decidable equality (kernel-reducible, for
evaluating concrete traces). -/
def decideMem {α : Type} [DecidableEq α] (a : α) : (l : List α) → Decidable (a ∈ l)
  | [] => isFalse (List.not_mem_nil a)
  | x :: xs =>
    if h : a = x then isTrue (by rw [h]; exact List.mem_cons_self x xs)
    else
      match decideMem a xs with
      | isTrue ht => isTrue (List.mem_cons_of_mem x ht)
      | isFalse hf => isFalse (fun hm => by
          rcases List.mem_cons.1 hm with h1 | h1
          · exact h h1
          · exact hf h1)

instance {α : Type} [DecidableEq α] (a : α) (l : List α) : Decidable (a ∈ l) :=
  decideMem a l

instance {ε α : Type} [DecidableEq ε] [DecidableEq α] : DecidableEq (Except ε α)
  | Except.ok x, Except.ok y =>
    if h : x = y then isTrue (by rw [h])
    else isFalse (fun hc => by injection hc; contradiction)
  | Except.ok _, Except.error _ => isFalse (fun hc => by cases hc)
  | Except.error _, Except.ok _ => isFalse (fun hc => by cases hc)
  | Except.error e, Except.error f =>
    if h : e = f then isTrue (by rw [h])
    else isFalse (fun hc => by injection hc; contradiction)

/-- A progress-only update (`update({ progress: p, download_speed: ..., eta: ... })`):
no status, no url, no error. -/
def progressUpdate (p : ℚ) : Effect :=
  Effect.update { progress := some p }

/-- The failure-boundary write of both pipelines:
`update({ status:'failed', error_message: msg, progress: 0, ... })`. -/
def failedUpdate (msg : String) : Effect :=
  Effect.update { status := some JobStatus.failed, progress := some 0, error_message := some msg }

/-- The success write of the validated pipelines:
`update({ status:'completed', progress: 100, download_url: url, ... })`. -/
def completedUpdate (url : String) : Effect :=
  Effect.update { status := some JobStatus.completed, progress := some 100, download_url := some url }

/-- The initial `update({ status:'downloading', progress: p, ... })` of the
serving wrappers. -/
def downloadingWrite (p : ℚ) : Effect :=
  Effect.update { status := some JobStatus.downloading, progress := some p }

/-- An update is terminal when it writes `completed` or `failed`. -/
def isTerminalWrite : Effect → Bool
  | Effect.update u =>
    match u.status with
    | some JobStatus.completed => true
    | some JobStatus.failed => true
    | _ => false
  | _ => false

/-- Number of terminal status writes in a trace. -/
def terminalCount (t : List Effect) : ℕ :=
  (t.filter isTerminalWrite).length

/-- Applying one effect to the job's status column (non-update effects and
updates without a status field leave it unchanged). -/
def applyStatus (s : JobStatus) : Effect → JobStatus
  | Effect.update u => u.status.getD s
  | _ => s

/-- Status column after replaying a trace from a given starting status. -/
def statusFrom (s : JobStatus) (t : List Effect) : JobStatus :=
  t.foldl applyStatus s

/-- Status column after replaying a trace from the initial `pending` row. -/
def finalStatus (t : List Effect) : JobStatus :=
  statusFrom JobStatus.pending t

/-! ### String primitives

JS string operations are modelled over the character list of the string so
that every definition evaluates on concrete inputs; note that JS
`replace(pat, r)` rewrites only the first occurrence, unlike Lean's
`String.replace`. -/

/-- `String.prototype.split(sep)` for a one-character separator. -/
def splitOnCharAux (sep : Char) : List Char → List Char → List (List Char)
  | [], acc => [acc.reverse]
  | c :: cs, acc =>
    if c = sep then acc.reverse :: splitOnCharAux sep cs []
    else splitOnCharAux sep cs (c :: acc)

/-- `s.split(sep)` for a one-character separator. -/
def splitOnChar (sep : Char) (s : String) : List String :=
  (splitOnCharAux sep s.data []).map List.asString

/-- `s.replace(c, '')` — JS replaces only the first occurrence. -/
def removeFirst (c : Char) : List Char → List Char
  | [] => []
  | x :: xs => if x = c then xs else x :: removeFirst c xs

/-- `s.endsWith(suffix)`. -/
def strEndsWith (s suffix : String) : Bool :=
  suffix.data.isSuffixOf s.data

/-- `s.startsWith(pre)`. -/
def strStartsWith (s pre : String) : Bool :=
  pre.data.isPrefixOf s.data

/-- Whether `pat` occurs as a contiguous run inside `l`. -/
def listHasInfix (pat : List Char) : List Char → Bool
  | [] => pat.isEmpty
  | c :: cs => pat.isPrefixOf (c :: cs) || listHasInfix pat cs

/-- `parseInt` on an all-digit string (`none` models `NaN` on an empty or
non-digit input; the repository only feeds it `<digits>` tokens). -/
def parseDigits (cs : List Char) : Option ℕ :=
  if cs = [] then none
  else cs.foldl (fun acc c => acc.bind (fun n =>
    if c.isDigit then some (n * 10 + (c.toNat - 48)) else none)) (some 0)

/-- `quality.split('_')` destructured as `[resolution, format]`; a missing
format component behaves as a string that is not `"audio"` / `"video"`
(the JS `undefined` compares unequal to both), modelled as `""`. -/
def parseQuality (q : String) : String × String :=
  match splitOnChar '_' q with
  | r :: f :: _ => (r, f)
  | r :: [] => (r, "")
  | [] => ("", "")

/-! ## Extraction tool adapter (yt-dlp command builders) -/

/-- Height ceiling token: `resolution === '4K' ? '2160' : resolution.replace('p', '')`
(from `buildPreciseDownloadCommand` and `buildEnhancedDownloadCommand`). -/
def maxHeightToken (resolution : String) : String :=
  if resolution = "4K" then "2160" else (removeFirst 'p' resolution.data).asString

/-- `buildPreciseDownloadCommand` from `supabase/functions/download-video/index.ts`
lines 483-517: fixed flags, then the format selector chosen by the requested
format, then the url. -/
def buildPreciseDownloadCommand (url resolution format : String) : List String :=
  let outputTemplate := "/tmp/%(title)s_%(id)s.%(ext)s"
  let baseArgs : List String :=
    ["--no-warnings", "--newline", "--progress", "--no-playlist",
     "--socket-timeout", "30", "--output", outputTemplate]
  let formatArgs : List String :=
    if format = "audio" then
      ["--extract-audio", "--audio-format", "mp3", "--audio-quality", "0",
       "--format", "bestaudio/best"]
    else if format = "video" then
      let maxHeight := maxHeightToken resolution
      ["--format",
       "bestvideo[height<=" ++ maxHeight ++ "][ext=mp4]/bestvideo[height<=" ++ maxHeight
         ++ "]/best[height<=" ++ maxHeight ++ "]"]
    else
      let maxHeight := maxHeightToken resolution
      ["--format",
       "best[height<=" ++ maxHeight ++ "][ext=mp4]/best[height<=" ++ maxHeight ++ "]/best"]
  baseArgs ++ formatArgs ++ [url]

/-- `buildEnhancedDownloadCommand` from `src/unnamed/part_004` lines 246-286. -/
def buildEnhancedDownloadCommand (url resolution format : String) : List String :=
  let outputTemplate := "/tmp/%(title)s_%(uploader)s_%(id)s.%(ext)s"
  let baseArgs : List String :=
    ["--no-warnings", "--newline", "--progress", "--no-playlist",
     "--socket-timeout", "30", "--retries", "3", "--fragment-retries", "3",
     "--continue", "--ignore-errors", "--no-abort-on-error",
     "--output", outputTemplate, "--verbose"]
  let formatArgs : List String :=
    if format = "audio" then
      ["--extract-audio", "--audio-format", "mp3", "--audio-quality", "0",
       "--format", "bestaudio[ext=m4a]/bestaudio[ext=mp3]/bestaudio/best"]
    else if format = "video" then
      let maxHeight := maxHeightToken resolution
      ["--format",
       "bestvideo[height<=" ++ maxHeight ++ "][ext=mp4]/bestvideo[height<=" ++ maxHeight
         ++ "]/bestvideo/best"]
    else
      let maxHeight := maxHeightToken resolution
      ["--format",
       "best[height<=" ++ maxHeight ++ "][ext=mp4]/best[height<=" ++ maxHeight ++ "]/best"]
  baseArgs ++ formatArgs ++ [url]

/-- True when `pat` occurs as a substring of `s` (used only to state that
selectors carry or do not carry a height constraint). -/
def strContains (s pat : String) : Bool :=
  listHasInfix pat.data s.data

/-! ## Progress stream monitors

Each subprocess stdout chunk either parses to a percentage candidate
(`some c`, from the three regex variants) or does not (`none`).  The monitors
fold a mutable `downloadProgress` over the chunk stream and emit a database
write for each accepted candidate; the returned list is the sequence of
persisted progress values. -/

/-- `monitorDownloadProgress` from `index.ts` lines 519-558: candidate clamped
to at most 90 (`Math.min(parseFloat(...), 90)`), persisted only when it
exceeds the previous value by more than 1. -/
def monitorDownloadProgressRun (p : ℚ) : List (Option ℚ) → List ℚ
  | [] => []
  | none :: rest => monitorDownloadProgressRun p rest
  | some c :: rest =>
    let newProgress := min c 90
    if p + 1 < newProgress then newProgress :: monitorDownloadProgressRun newProgress rest
    else monitorDownloadProgressRun p rest

/-- The progress-parsing fold of `monitorDownloadWithTimeout` from
`part_004` lines 304-350: candidate clamped below by the running value and
above by 85 (`Math.min(Math.max(parseFloat(...), downloadProgress), 85)`),
persisted only when it exceeds the previous value by more than 1. -/
def monitorDownloadWithTimeoutRun (p : ℚ) : List (Option ℚ) → List ℚ
  | [] => []
  | none :: rest => monitorDownloadWithTimeoutRun p rest
  | some c :: rest =>
    let newProgress := min (max c p) 85
    if p + 1 < newProgress then newProgress :: monitorDownloadWithTimeoutRun newProgress rest
    else monitorDownloadWithTimeoutRun p rest

lemma monitorDownloadProgressRun_mem {p : ℚ} {cs : List (Option ℚ)} :
    ∀ x ∈ monitorDownloadProgressRun p cs, p + 1 < x ∧ x ≤ 90 := by
  induction cs generalizing p with
  | nil => simp [monitorDownloadProgressRun]
  | cons c rest ih =>
    cases c with
    | none => simpa [monitorDownloadProgressRun] using ih
    | some v =>
      intro x hx
      simp only [monitorDownloadProgressRun] at hx
      by_cases h : p + 1 < min v 90
      · simp only [if_pos h, List.mem_cons] at hx
        rcases hx with rfl | hx
        · exact ⟨h, min_le_right _ _⟩
        · have := ih x hx
          exact ⟨by linarith [this.1], this.2⟩
      · simp only [if_neg h] at hx
        exact ih x hx

lemma monitorDownloadWithTimeoutRun_mem {p : ℚ} {cs : List (Option ℚ)} :
    ∀ x ∈ monitorDownloadWithTimeoutRun p cs, p + 1 < x ∧ x ≤ 85 := by
  induction cs generalizing p with
  | nil => simp [monitorDownloadWithTimeoutRun]
  | cons c rest ih =>
    cases c with
    | none => simpa [monitorDownloadWithTimeoutRun] using ih
    | some v =>
      intro x hx
      simp only [monitorDownloadWithTimeoutRun] at hx
      by_cases h : p + 1 < min (max v p) 85
      · simp only [if_pos h, List.mem_cons] at hx
        rcases hx with rfl | hx
        · exact ⟨h, min_le_right _ _⟩
        · have := ih x hx
          exact ⟨by linarith [this.1], this.2⟩
      · simp only [if_neg h] at hx
        exact ih x hx

lemma monitorDownloadProgressRun_pairwise (p : ℚ) (cs : List (Option ℚ)) :
    (monitorDownloadProgressRun p cs).Pairwise (· < ·) := by
  induction cs generalizing p with
  | nil => simp [monitorDownloadProgressRun]
  | cons c rest ih =>
    cases c with
    | none => simpa [monitorDownloadProgressRun] using ih p
    | some v =>
      simp only [monitorDownloadProgressRun]
      by_cases h : p + 1 < min v 90
      · simp only [if_pos h]
        refine List.pairwise_cons.2 ⟨fun x hx => ?_, ih _⟩
        have := monitorDownloadProgressRun_mem x hx
        linarith [this.1]
      · simp only [if_neg h]
        exact ih p

lemma monitorDownloadWithTimeoutRun_pairwise (p : ℚ) (cs : List (Option ℚ)) :
    (monitorDownloadWithTimeoutRun p cs).Pairwise (· < ·) := by
  induction cs generalizing p with
  | nil => simp [monitorDownloadWithTimeoutRun]
  | cons c rest ih =>
    cases c with
    | none => simpa [monitorDownloadWithTimeoutRun] using ih p
    | some v =>
      simp only [monitorDownloadWithTimeoutRun]
      by_cases h : p + 1 < min (max v p) 85
      · simp only [if_pos h]
        refine List.pairwise_cons.2 ⟨fun x hx => ?_, ih _⟩
        have := monitorDownloadWithTimeoutRun_mem x hx
        linarith [this.1]
      · simp only [if_neg h]
        exact ih p

/-! ## Artifact validator (part_004 `verifyFileIntegrity` / `verifyFileHeaders`,
part_002 `validateMediaFile`) -/

/-- MP4 / WebM-Matroska container signatures from `verifyFileHeaders`
(`part_004` lines 430-435). -/
def videoSignatures : List (List ℕ) :=
  [[0x00, 0x00, 0x00, 0x18, 0x66, 0x74, 0x79, 0x70],
   [0x00, 0x00, 0x00, 0x1C, 0x66, 0x74, 0x79, 0x70],
   [0x1A, 0x45, 0xDF, 0xA3]]

/-- MP3 frame-sync and ID3 signatures from `verifyFileHeaders`
(`part_004` lines 437-443). -/
def audioSignatures : List (List ℕ) :=
  [[0xFF, 0xFB], [0xFF, 0xF3], [0xFF, 0xF2], [0x49, 0x44, 0x33]]

/-- The inner matching loop of `verifyFileHeaders`: compares `header[i]` to
`sig[i]` for `i < sig.length && i < header.length`; running past either end
leaves the match flag true. -/
def sigMatches : List ℕ → List ℕ → Bool
  | _, [] => true
  | [], _ :: _ => true
  | h :: hs, s :: ss => (h == s) && sigMatches hs ss

/-- `verifyFileHeaders(header, format)` from `part_004` lines 429-463: audio
requests check only the audio signatures; every other format class checks
video signatures then audio signatures.  The extension of the file is not an
input.  `header` is the 16-byte buffer read from the start of the file
(`Uint8Array(16)` is zero-initialised, so a shorter file leaves trailing
zero bytes). -/
def verifyFileHeaders (header : List ℕ) (format : String) : Bool :=
  let signatures := if format = "audio" then audioSignatures
                    else videoSignatures ++ audioSignatures
  signatures.any (fun sig => sigMatches header sig)

/-- The 16-byte header buffer for a file with the given leading bytes. -/
def headerBytes (file : List ℕ) : List ℕ :=
  file.take 16 ++ List.replicate (16 - file.length) 0

/-- `verifyFileIntegrity` from `part_004` lines 397-427 (the stat / header
part): minimum-size floor of 100000 bytes for audio and 1000000 bytes for
video-class requests, then the magic-number check.  An `Except.error` models
the thrown `Error` with the source's message. -/
def verifyFileIntegrity (fileSize : ℕ) (header : List ℕ) (format : String) :
    Except String Unit :=
  let minSize : ℕ := if format = "audio" then 100000 else 1000000
  if fileSize < minSize then
    Except.error ("File too small (" ++ toString fileSize ++ " bytes) - likely corrupted")
  else if verifyFileHeaders header format then Except.ok ()
  else Except.error "File header verification failed - not a valid media file"

/-- `validateMediaFile(fileData, format)` from `part_002` lines 360-380: for
audio, accept an MP3 frame header (0xFF 0xFB) or an ID3 tag; otherwise scan
the first 20 bytes for the ASCII `ftyp` box marker.  Out-of-range JS reads
(`fileData[i]` on a short array) yield `undefined`, which compares unequal to
every byte; modelled by `List.get?` returning `none`. -/
def validateMediaFile (fileData : List ℕ) (format : String) : Bool :=
  if format = "audio" then
    (fileData.get? 0 == some 0xFF && fileData.get? 1 == some 0xFB)
      || (fileData.get? 0 == some 0x49 && fileData.get? 1 == some 0x44
            && fileData.get? 2 == some 0x33)
  else
    (List.range (min 20 (fileData.length - 4))).any (fun i =>
      fileData.get? i == some 0x66 && fileData.get? (i + 1) == some 0x74
        && fileData.get? (i + 2) == some 0x79 && fileData.get? (i + 3) == some 0x70)

/-! ## Rate-limited progress persistence (part_002 `downloadVideo`) -/

/-- Mutable state of the part_002 monitor loop: the last persisted progress
value and the `Date.now()` of the last persisted update. -/
structure RateLimitState where
  downloadProgress : ℚ
  lastUpdateTime : ℕ
deriving DecidableEq, Repr

/-- One stdout chunk of the part_002 monitor (`part_002` lines 135-190):
an unparseable chunk (`none`) produces no write; a parsed candidate is
clamped to at most 90 and persisted only when it exceeds the previous value
by more than 1 or more than 2000 ms have elapsed since the last persisted
update.  Returns the new state and whether a write was emitted.  JS negative
clock differences compare false against 2000 exactly as truncated natural
subtraction does. -/
def rateLimitStep (st : RateLimitState) (t : ℕ) (chunk : Option ℚ) :
    RateLimitState × Bool :=
  match chunk with
  | none => (st, false)
  | some c =>
    let newProgress := min c 90
    if st.downloadProgress + 1 < newProgress ∨ 2000 < t - st.lastUpdateTime then
      (⟨newProgress, t⟩, true)
    else (st, false)

/-- The sequence of persisted progress values over a chunk stream, each chunk
tagged with its arrival clock. -/
def rateLimitRun (st : RateLimitState) : List (ℕ × Option ℚ) → List ℚ
  | [] => []
  | (t, ch) :: rest =>
    let step := rateLimitStep st t ch
    if step.2 then step.1.downloadProgress :: rateLimitRun step.1 rest
    else rateLimitRun step.1 rest

/-- 100 progress lines 0.1 points apart (45.0, 45.1, ..., 54.9), all arriving
within under a second (9 ms apart). -/
def denseProgressLines : List (ℕ × Option ℚ) :=
  (List.range 100).map (fun i => (9 * i, some (((450 : ℚ) + i) / 10)))

/-! ## Artifact locator -/

/-- A regular file in `/tmp` as seen by `Deno.readDir` + `Deno.stat`. -/
structure DirEntryFile where
  name : String
  size : ℕ
  mtimeMs : ℕ
deriving DecidableEq, Repr

/-- The candidate filter of `findAndValidateDownloadedFile` (`index.ts`
lines 587-608): extension matches the requested format class, name does not
start with a dot, and name is strictly longer than 10 characters. -/
def locatorCandidates (format : String) (dir : List DirEntryFile) : List DirEntryFile :=
  dir.filter (fun f =>
    ((format == "audio" && strEndsWith f.name ".mp3")
      || (format != "audio" && (strEndsWith f.name ".mp4" || strEndsWith f.name ".webm")))
    && !(strStartsWith f.name ".") && decide (10 < f.name.length))

/-- First element of maximal size (the JS stable `sort((a,b) => b.size - a.size)[0]`). -/
def largestFile (x : DirEntryFile) (xs : List DirEntryFile) : DirEntryFile :=
  xs.foldl (fun best f => if best.size < f.size then f else best) x

/-- `findAndValidateDownloadedFile(format)` from `index.ts` lines 583-628 over
a directory listing: filter candidates, throw when none remain, pick the
largest, then reject empty and sub-1000-byte files. -/
def findAndValidateDownloadedFile (format : String) (dir : List DirEntryFile) :
    Except String DirEntryFile :=
  match locatorCandidates format dir with
  | [] => Except.error "No downloaded file found matching requested format"
  | x :: xs =>
    let selectedFile := largestFile x xs
    if selectedFile.size = 0 then Except.error "Downloaded file is empty"
    else if selectedFile.size < 1000 then
      Except.error "Downloaded file is too small, may be corrupted"
    else Except.ok selectedFile

/-- The candidate filter of `findValidDownloadedFile` (`part_004` lines
470-492): media extension, no leading dot, name longer than 10 characters,
and size above 50000 bytes. -/
def findValidCandidates (dir : List DirEntryFile) : List DirEntryFile :=
  dir.filter (fun f =>
    (strEndsWith f.name ".mp4" || strEndsWith f.name ".webm"
      || strEndsWith f.name ".mp3" || strEndsWith f.name ".m4a")
    && !(strStartsWith f.name ".") && decide (10 < f.name.length)
    && decide (50000 < f.size))

/-- The pairwise preference of `findValidDownloadedFile`'s comparator: prefer
the larger file when sizes differ by more than 1000000 bytes, otherwise the
more recently modified one.  (The JS comparator is not transitive, so the
sort order is implementation-defined; only the selected representative and
the empty case are relied on by any claim.) -/
def preferFile (best f : DirEntryFile) : DirEntryFile :=
  if 1000000 < Nat.dist best.size f.size then
    (if best.size < f.size then f else best)
  else (if best.mtimeMs < f.mtimeMs then f else best)

/-- `findValidDownloadedFile()` from `part_004` lines 465-516: returns the
selected path, or `none` when no candidate survives the filter. -/
def findValidDownloadedFile (dir : List DirEntryFile) : Option String :=
  match findValidCandidates dir with
  | [] => none
  | x :: xs => some ("/tmp/" ++ (xs.foldl preferFile x).name)

/-! ## index.ts pipeline (`downloadVideoWithValidation`, lines 322-401)

External outcomes (format listing, subprocess exit, directory contents,
storage results, clock) are supplied by an `IndexOracle`; the pipeline is the
fold of the source's statements into an effect trace. -/

/-- `requestedResolution === '4K' ? 2160 : parseInt(requestedResolution.replace('p', ''))`
(`index.ts` line 463). -/
def resolutionNumber (r : String) : ℕ :=
  if r = "4K" then 2160 else (parseDigits (removeFirst 'p' r.data)).getD 0

/-- First height of minimal distance to `n` (the JS stable sort by
`|a.height - n| - |b.height - n|` followed by `[0]`). -/
def closestHeight (x : ℕ) (xs : List ℕ) (n : ℕ) : ℕ :=
  xs.foldl (fun best h => if Nat.dist h n < Nat.dist best n then h else best) x

/-- `validateAndSelectFormat` from `index.ts` lines 453-481, reduced to the
selected resolution token: an empty format list falls back to the requested
resolution; an exact height match keeps it; otherwise the closest available
height is re-rendered as `<height>p`.  The source's `null` return is
unreachable (a nonempty sorted list always has a first element) but kept. -/
def validateAndSelectFormat (availableHeights : List ℕ) (requestedResolution : String) :
    Option String :=
  match availableHeights with
  | [] => some requestedResolution
  | x :: xs =>
    let n := resolutionNumber requestedResolution
    if (x :: xs).any (fun h => h == n) then some requestedResolution
    else some (toString (closestHeight x xs n) ++ "p")

/-- `file.name.split('.').pop()` (never empty for a nonempty name). -/
def fileExtension (name : String) : String :=
  (splitOnChar '.' name).getLastD name

/-- External outcomes consumed by one run of `downloadVideoWithValidation`. -/
structure IndexOracle where
  ytDlpAvailable : Bool
  availableHeights : List ℕ
  monitorChunks : List (Option ℚ)
  exitSuccess : Bool
  stderrText : String
  dir : List DirEntryFile
  uploadOk : Bool
  uploadErrorText : String
  signUrlOk : Bool
  signedUrl : String
  jobId : String
  timestampMs : ℕ

/-- `${format}_${jobId}_${timestamp}.${actualExtension}` (`index.ts` line 637). -/
def storageKeyIndex (o : IndexOracle) (format : String) (file : DirEntryFile) : String :=
  format ++ "_" ++ o.jobId ++ "_" ++ toString o.timestampMs ++ "." ++ fileExtension file.name

/-- `uploadAndFinalize` from `index.ts` lines 630-693: progress-95 write, the
storage upload, the signed-URL request, the completed write (progress 100 and
`download_url`), then best-effort local cleanup.  Failures throw before the
completed write. -/
def uploadAndFinalize (o : IndexOracle) (file : DirEntryFile) (format : String) :
    List Effect × Except String String :=
  let key := storageKeyIndex o format file
  if ¬ o.uploadOk then
    ([progressUpdate 95, Effect.uploadFile key],
     Except.error ("Upload failed: " ++ o.uploadErrorText))
  else if ¬ o.signUrlOk then
    ([progressUpdate 95, Effect.uploadFile key, Effect.signUrl key],
     Except.error "Failed to generate download URL")
  else
    ([progressUpdate 95, Effect.uploadFile key, Effect.signUrl key,
      completedUpdate o.signedUrl, Effect.deleteFile ("/tmp/" ++ file.name)],
     Except.ok o.signedUrl)

/-- The try-block of `downloadVideoWithValidation` (`index.ts` lines 322-387):
progress-5 write, format validation, progress-10 write, subprocess spawn and
progress monitoring, artifact location/validation, then upload and
finalisation.  `Except.error` carries the message of the `Error` thrown at
that point. -/
def downloadVideoWithValidationBody (o : IndexOracle) (url quality : String) :
    List Effect × Except String Unit :=
  let resolution := (parseQuality quality).1
  let format := (parseQuality quality).2
  let t1 : List Effect := [progressUpdate 5]
  match validateAndSelectFormat o.availableHeights resolution with
  | none =>
    (t1, Except.error ("Requested quality " ++ resolution ++ " in " ++ format
          ++ " format is not available for this video"))
  | some selRes =>
    let t2 := t1 ++ progressUpdate 10 :: Effect.spawn (buildPreciseDownloadCommand url selRes format)
      :: (monitorDownloadProgressRun 10 o.monitorChunks).map progressUpdate
    if ¬ o.exitSuccess then (t2, Except.error ("Download failed: " ++ o.stderrText))
    else
      match findAndValidateDownloadedFile format o.dir with
      | Except.error msg => (t2, Except.error msg)
      | Except.ok file =>
        let up := uploadAndFinalize o file format
        (t2 ++ up.1, up.2.map (fun _ => ()))

/-- `downloadVideoWithValidation` with its catch block (`index.ts` lines
388-400): any thrown error becomes the single failed-status write. -/
def downloadVideoWithValidation (o : IndexOracle) (url quality : String) : List Effect :=
  let body := downloadVideoWithValidationBody o url quality
  match body.2 with
  | Except.ok _ => body.1
  | Except.error msg => body.1 ++ [failedUpdate msg]

/-- The serving wrapper (`index.ts` lines 242-305): the downloading write,
then either the tool-unavailable failed write or the detached pipeline. -/
def indexServeTrace (o : IndexOracle) (url quality : String) : List Effect :=
  downloadingWrite 0 ::
    (if o.ytDlpAvailable then downloadVideoWithValidation o url quality
     else [failedUpdate "Video downloader not available. Please try again later."])

/-! ## part_004 pipeline (`downloadVideoProcess`, lines 51-90) -/

/-- Outcome of one `monitorDownloadWithTimeout` call inside the retry loop of
`executeDownloadWithValidation`: a detected file path, a `null` return, or a
thrown error (timeout, non-zero exit, ...). -/
inductive AttemptOutcome
  | succeeded (path : String)
  | returnedNull
  | threw (msg : String)
deriving DecidableEq, Repr

/-- External outcomes consumed by one run of `downloadVideoProcess`.
`envFailure` is the message thrown by `validateAndSetupEnvironment` (`none`
when yt-dlp and ffmpeg are available); `attemptChunks n` / `attemptOutcome n`
describe the `n`-th subprocess invocation. -/
structure Part004Oracle where
  envFailure : Option String
  attemptChunks : ℕ → List (Option ℚ)
  attemptOutcome : ℕ → AttemptOutcome
  fileSize : ℕ
  fileHeader : List ℕ
  uploadOk : Bool
  uploadErrorText : String
  signUrlOk : Bool
  signedUrl : String
  jobId : String
  timestampMs : ℕ

/-- The quality ladder applied in the catch block of the retry loop
(`part_004` lines 228-229): `1080p` falls to `720p`, `720p` to `480p`. -/
def degradeResolution (r : String) : String :=
  if r = "1080p" then "720p" else if r = "720p" then "480p" else r

/-- The `while (attempts < maxAttempts)` loop of `executeDownloadWithValidation`
(`part_004` lines 198-243).  `remaining` is `maxAttempts - attempts` (called
with 3).  Crucially, `ytDlpArgs` was computed once before the loop: every
spawn uses it verbatim; only the local `resolution` variable is degraded in
the catch block, and nothing reads it afterwards.  Each attempt spawns the
subprocess and performs that attempt's monitor progress writes; a throw
before the last attempt adds the retry progress write `10 + attempts * 5`. -/
def executeDownloadLoopAux (o : Part004Oracle) (ytDlpArgs : List String) :
    String → ℕ → ℕ → List Effect × Except String String
  | _, _, 0 => ([], Except.error "Download failed after 3 attempts")
  | resolution, attempts, remaining + 1 =>
    let attempt := attempts + 1
    let monitorWrites :=
      (monitorDownloadWithTimeoutRun 15 (o.attemptChunks attempt)).map progressUpdate
    match o.attemptOutcome attempt with
    | AttemptOutcome.succeeded path =>
      (Effect.spawn ytDlpArgs :: monitorWrites, Except.ok path)
    | AttemptOutcome.returnedNull =>
      let rest := executeDownloadLoopAux o ytDlpArgs resolution attempt remaining
      (Effect.spawn ytDlpArgs :: monitorWrites ++ rest.1, rest.2)
    | AttemptOutcome.threw _ =>
      if attempt < 3 then
        let rest := executeDownloadLoopAux o ytDlpArgs (degradeResolution resolution) attempt remaining
        (Effect.spawn ytDlpArgs :: monitorWrites
          ++ progressUpdate ((10 + attempt * 5 : ℕ) : ℚ) :: rest.1, rest.2)
      else
        let rest := executeDownloadLoopAux o ytDlpArgs resolution attempt remaining
        (Effect.spawn ytDlpArgs :: monitorWrites ++ rest.1, rest.2)

/-- `executeDownloadWithValidation` (`part_004` lines 175-244): the
progress-15 write, then the bounded retry loop over the command built once
from the original resolution. -/
def executeDownloadWithValidation (o : Part004Oracle) (ytDlpArgs : List String)
    (resolution : String) : List Effect × Except String String :=
  let loop := executeDownloadLoopAux o ytDlpArgs resolution 0 3
  (progressUpdate 15 :: loop.1, loop.2)

/-- `filePath.split('/').pop() || 'download'` (`part_004` line 542). -/
def uploadFileName (filePath : String) : String :=
  let fn := (splitOnChar '/' filePath).getLastD ""
  if fn = "" then "download" else fn

/-- `fileName.split('.').pop() || 'mp4'` (`part_004` line 543). -/
def uploadExtension (fileName : String) : String :=
  let ext := (splitOnChar '.' fileName).getLastD ""
  if ext = "" then "mp4" else ext

/-- `${format}_${jobId}_${timestamp}.${extension}` (`part_004` line 544). -/
def storageKeyPart004 (o : Part004Oracle) (format filePath : String) : String :=
  format ++ "_" ++ o.jobId ++ "_" ++ toString o.timestampMs ++ "."
    ++ uploadExtension (uploadFileName filePath)

/-- `uploadAndComplete` from `part_004` lines 518-597: progress-90 write, a
final sub-10000-byte size guard, the storage upload, the signed-URL request,
the completed write, then best-effort cleanup of the temp file. -/
def uploadAndComplete (o : Part004Oracle) (filePath format : String) :
    List Effect × Except String Unit :=
  let key := storageKeyPart004 o format filePath
  if o.fileSize < 10000 then
    ([progressUpdate 90],
     Except.error ("File too small for upload (" ++ toString o.fileSize
       ++ " bytes) - corrupted download"))
  else if ¬ o.uploadOk then
    ([progressUpdate 90, Effect.uploadFile key],
     Except.error ("Upload failed: " ++ o.uploadErrorText))
  else if ¬ o.signUrlOk then
    ([progressUpdate 90, Effect.uploadFile key, Effect.signUrl key],
     Except.error "Failed to generate download URL")
  else
    ([progressUpdate 90, Effect.uploadFile key, Effect.signUrl key,
      completedUpdate o.signedUrl, Effect.deleteFile filePath],
     Except.ok ())

/-- The try-block of `downloadVideoProcess` (`part_004` lines 52-76):
environment validation (with its progress-8 write), the retried download,
`verifyFileIntegrity` (whose catch re-throws with the
`File verification failed: ` wrapper), then upload and completion. -/
def downloadVideoProcessBody (o : Part004Oracle) (url quality : String) :
    List Effect × Except String Unit :=
  let t1 : List Effect := [progressUpdate 8]
  match o.envFailure with
  | some msg => (t1, Except.error msg)
  | none =>
    let resolution := (parseQuality quality).1
    let format := (parseQuality quality).2
    let args := buildEnhancedDownloadCommand url resolution format
    let dl := executeDownloadWithValidation o args resolution
    let t2 := t1 ++ dl.1
    match dl.2 with
    | Except.error msg => (t2, Except.error msg)
    | Except.ok path =>
      if path = "" then (t2, Except.error "Download failed - no valid file created")
      else
        match verifyFileIntegrity o.fileSize o.fileHeader format with
        | Except.error msg => (t2, Except.error ("File verification failed: " ++ msg))
        | Except.ok _ =>
          let up := uploadAndComplete o path format
          (t2 ++ up.1, up.2)

/-- `downloadVideoProcess` with its catch block (`part_004` lines 77-89):
any thrown error becomes the single failed-status write. -/
def downloadVideoProcess (o : Part004Oracle) (url quality : String) : List Effect :=
  let body := downloadVideoProcessBody o url quality
  match body.2 with
  | Except.ok _ => body.1
  | Except.error msg => body.1 ++ [failedUpdate msg]

/-- The serving wrapper of `part_004` (lines 9-49): downloading write with
progress 5, then the detached pipeline. -/
def part004ServeTrace (o : Part004Oracle) (url quality : String) : List Effect :=
  downloadingWrite 5 :: downloadVideoProcess o url quality

/-! ## Timeout race of `monitorDownloadWithTimeout` (`part_004` lines 288-394)

Timing abstraction: the subprocess's streams close `exitMs` milliseconds
after spawn (`none` when the process never exits), and the race against the
`setTimeout` rejection is decided by comparing that against the budget.  The
first component records whether the catch block's `child.kill()` ran. -/

/-- One subprocess run as seen by the supervisor. -/
structure ProcessRun where
  exitMs : Option ℕ
  exitSuccess : Bool
  stderrText : String
  destinationHint : Option String

/-- Result of `monitorDownloadWithTimeout(child, supabase, jobId, timeoutMs)`:
if the streams are not done strictly before the budget, the timeout promise
rejects first, the catch kills the subprocess and re-throws
`Download timeout`; a failed exit re-throws the stderr diagnosis (also via
the catch, hence also a kill attempt); a clean exit returns the destination
hint or falls back to scanning `/tmp`. -/
def monitorDownloadWithTimeoutResult (timeoutMs : ℕ) (run : ProcessRun)
    (dir : List DirEntryFile) : Bool × Except String (Option String) :=
  match run.exitMs with
  | none => (true, Except.error "Download timeout")
  | some t =>
    if timeoutMs ≤ t then (true, Except.error "Download timeout")
    else if ¬ run.exitSuccess then
      (true, Except.error ("Download failed: " ++ run.stderrText))
    else
      match run.destinationHint with
      | some f => (false, Except.ok (some f))
      | none => (false, Except.ok (findValidDownloadedFile dir))

/-! ## Trace helper lemmas -/

lemma terminalCount_nil : terminalCount [] = 0 := rfl

lemma terminalCount_append (a b : List Effect) :
    terminalCount (a ++ b) = terminalCount a + terminalCount b := by
  simp [terminalCount, List.filter_append]

lemma terminalCount_cons (e : Effect) (t : List Effect) :
    terminalCount (e :: t) = (if isTerminalWrite e then 1 else 0) + terminalCount t := by
  by_cases h : isTerminalWrite e <;>
    simp [terminalCount, List.filter_cons, h, Nat.add_comm]

/-- An effect that is either not a database update, or an update that carries
no status field and only progress values strictly inside `[0, 100)`.  All
effects of the pipelines other than the terminal writes are of this kind. -/
def benignEffect (e : Effect) : Prop :=
  ∀ u : JobUpdate, e = Effect.update u →
    u.status = none ∧ ∀ p : ℚ, u.progress = some p → 0 ≤ p ∧ p < 100

lemma benignEffect_progressUpdate {p : ℚ} (h0 : 0 ≤ p) (h1 : p < 100) :
    benignEffect (progressUpdate p) := by
  intro u hu
  rw [progressUpdate, Effect.update.injEq] at hu
  subst hu
  refine ⟨rfl, ?_⟩
  intro q hq
  simp only [Option.some.injEq] at hq
  exact hq ▸ ⟨h0, h1⟩

lemma benignEffect_spawn (args : List String) : benignEffect (Effect.spawn args) := by
  intro u hu; cases hu

lemma benignEffect_uploadFile (k : String) : benignEffect (Effect.uploadFile k) := by
  intro u hu; cases hu

lemma benignEffect_signUrl (k : String) : benignEffect (Effect.signUrl k) := by
  intro u hu; cases hu

lemma benignEffect_deleteFile (p : String) : benignEffect (Effect.deleteFile p) := by
  intro u hu; cases hu

lemma benignEffect_monitorIndex {cs : List (Option ℚ)} :
    ∀ e ∈ (monitorDownloadProgressRun 10 cs).map progressUpdate, benignEffect e := by
  intro e he
  rw [List.mem_map] at he
  obtain ⟨p, hp, rfl⟩ := he
  have := monitorDownloadProgressRun_mem p hp
  exact benignEffect_progressUpdate (by linarith [this.1]) (by linarith [this.2])

lemma benignEffect_monitorEnhanced {cs : List (Option ℚ)} :
    ∀ e ∈ (monitorDownloadWithTimeoutRun 15 cs).map progressUpdate, benignEffect e := by
  intro e he
  rw [List.mem_map] at he
  obtain ⟨p, hp, rfl⟩ := he
  have := monitorDownloadWithTimeoutRun_mem p hp
  exact benignEffect_progressUpdate (by linarith [this.1]) (by linarith [this.2])

lemma isTerminalWrite_of_benign {e : Effect} (h : benignEffect e) :
    isTerminalWrite e = false := by
  cases e with
  | update u =>
    have := (h u rfl).1
    simp [isTerminalWrite, this]
  | spawn args => rfl
  | uploadFile k => rfl
  | signUrl k => rfl
  | deleteFile p => rfl

lemma terminalCount_eq_zero_of_benign {t : List Effect} (h : ∀ e ∈ t, benignEffect e) :
    terminalCount t = 0 := by
  induction t with
  | nil => rfl
  | cons e rest ih =>
    rw [terminalCount_cons, isTerminalWrite_of_benign (h e (List.mem_cons_self _ _))]
    simpa using ih (fun e he => h e (List.mem_cons_of_mem _ he))

lemma applyStatus_of_benign {e : Effect} (s : JobStatus) (h : benignEffect e) :
    applyStatus s e = s := by
  cases e with
  | update u => simp [applyStatus, (h u rfl).1]
  | spawn args => rfl
  | uploadFile k => rfl
  | signUrl k => rfl
  | deleteFile p => rfl

lemma statusFrom_append (s : JobStatus) (a b : List Effect) :
    statusFrom s (a ++ b) = statusFrom (statusFrom s a) b := by
  simp [statusFrom, List.foldl_append]

lemma statusFrom_of_benign {t : List Effect} (s : JobStatus) (h : ∀ e ∈ t, benignEffect e) :
    statusFrom s t = s := by
  induction t generalizing s with
  | nil => rfl
  | cons e rest ih =>
    have h1 : applyStatus s e = s := applyStatus_of_benign s (h e (List.mem_cons_self _ _))
    calc statusFrom s (e :: rest) = statusFrom (applyStatus s e) rest := rfl
    _ = applyStatus s e := ih _ (fun x hx => h x (List.mem_cons_of_mem _ hx))
    _ = s := h1

/-- Whether a trace contains a storage upload. -/
def hasUploadEffect (t : List Effect) : Bool :=
  t.any (fun e => match e with | Effect.uploadFile _ => true | _ => false)

/-- Whether a trace contains a local file deletion. -/
def hasDeleteEffect (t : List Effect) : Bool :=
  t.any (fun e => match e with | Effect.deleteFile _ => true | _ => false)

/-- Whether a trace contains a completed-status write. -/
def hasCompletedWrite (t : List Effect) : Bool :=
  t.any (fun e => match e with
    | Effect.update u => u.status == some JobStatus.completed
    | _ => false)

/-! ## Case analysis of the index.ts pipeline body -/

/-- Every run of the try-block of `downloadVideoWithValidation` either throws
(leaving only benign effects behind) or reaches the completed write, in which
case the subprocess exited cleanly, the artifact was located and validated,
the upload and the signed-URL issuance succeeded, and the trace ends with the
upload, the URL issuance, the completed write and the cleanup, in that
order, after only benign effects. -/
lemma indexBody_spec (o : IndexOracle) (url quality : String) :
    (∃ msg, (downloadVideoWithValidationBody o url quality).2 = Except.error msg ∧
       ∀ e ∈ (downloadVideoWithValidationBody o url quality).1, benignEffect e)
  ∨ (∃ file pre,
       findAndValidateDownloadedFile (parseQuality quality).2 o.dir = Except.ok file ∧
       o.exitSuccess = true ∧ o.uploadOk = true ∧ o.signUrlOk = true ∧
       (downloadVideoWithValidationBody o url quality).2 = Except.ok () ∧
       (downloadVideoWithValidationBody o url quality).1
         = pre ++ [progressUpdate 95,
                   Effect.uploadFile (storageKeyIndex o (parseQuality quality).2 file),
                   Effect.signUrl (storageKeyIndex o (parseQuality quality).2 file),
                   completedUpdate o.signedUrl,
                   Effect.deleteFile ("/tmp/" ++ file.name)] ∧
       (∀ e ∈ pre, benignEffect e)) := by
  have benign5 : benignEffect (progressUpdate 5) :=
    benignEffect_progressUpdate (by norm_num) (by norm_num)
  have benign10 : benignEffect (progressUpdate 10) :=
    benignEffect_progressUpdate (by norm_num) (by norm_num)
  have benign95 : benignEffect (progressUpdate 95) :=
    benignEffect_progressUpdate (by norm_num) (by norm_num)
  have benignPre : ∀ selRes : String, ∀ e ∈ progressUpdate 5 :: progressUpdate 10 ::
      Effect.spawn (buildPreciseDownloadCommand url selRes (parseQuality quality).2)
      :: (monitorDownloadProgressRun 10 o.monitorChunks).map progressUpdate,
      benignEffect e := by
    intro selRes e he
    rcases List.mem_cons.1 he with rfl | he
    · exact benign5
    rcases List.mem_cons.1 he with rfl | he
    · exact benign10
    rcases List.mem_cons.1 he with rfl | he
    · exact benignEffect_spawn _
    exact benignEffect_monitorIndex e he
  rcases hsel : validateAndSelectFormat o.availableHeights (parseQuality quality).1 with _ | selRes
  · left
    refine ⟨"Requested quality " ++ (parseQuality quality).1 ++ " in " ++ (parseQuality quality).2
      ++ " format is not available for this video", ?_, ?_⟩
    · simp [downloadVideoWithValidationBody, hsel]
    · simp only [downloadVideoWithValidationBody, hsel]
      intro e he
      rcases List.mem_singleton.1 he with rfl
      exact benign5
  · by_cases hex : o.exitSuccess = true
    · rcases hfind : findAndValidateDownloadedFile (parseQuality quality).2 o.dir with msg | file
      · left
        refine ⟨msg, ?_, ?_⟩
        · simp [downloadVideoWithValidationBody, hsel, hex, hfind]
        · simp only [downloadVideoWithValidationBody, hsel, hex, hfind, not_true,
            List.cons_append, List.nil_append, if_false]
          simpa using benignPre selRes
      · by_cases hup : o.uploadOk = true
        · by_cases hsign : o.signUrlOk = true
          · right
            refine ⟨file, progressUpdate 5 :: progressUpdate 10 ::
              Effect.spawn (buildPreciseDownloadCommand url selRes (parseQuality quality).2)
              :: (monitorDownloadProgressRun 10 o.monitorChunks).map progressUpdate,
              rfl, hex, hup, hsign, ?_, ?_, benignPre selRes⟩
            · simp [downloadVideoWithValidationBody, hsel, hex, hfind,
                uploadAndFinalize, hup, hsign, Except.map]
            · simp [downloadVideoWithValidationBody, hsel, hex, hfind,
                uploadAndFinalize, hup, hsign]
          · left
            refine ⟨"Failed to generate download URL", ?_, ?_⟩
            · simp [downloadVideoWithValidationBody, hsel, hex, hfind,
                uploadAndFinalize, hup, hsign, Except.map]
            · simp only [downloadVideoWithValidationBody, hsel, hex, hfind,
                uploadAndFinalize, hup, hsign, not_true, not_false_iff, if_true, if_false]
              intro e he
              rcases List.mem_append.1 he with he | he
              · exact benignPre selRes e he
              rcases List.mem_cons.1 he with rfl | he
              · exact benign95
              rcases List.mem_cons.1 he with rfl | he
              · exact benignEffect_uploadFile _
              rcases List.mem_singleton.1 he with rfl
              exact benignEffect_signUrl _
        · left
          refine ⟨"Upload failed: " ++ o.uploadErrorText, ?_, ?_⟩
          · simp [downloadVideoWithValidationBody, hsel, hex, hfind,
              uploadAndFinalize, hup, Except.map]
          · simp only [downloadVideoWithValidationBody, hsel, hex, hfind,
              uploadAndFinalize, hup, not_true, not_false_iff, if_true, if_false]
            intro e he
            rcases List.mem_append.1 he with he | he
            · exact benignPre selRes e he
            rcases List.mem_cons.1 he with rfl | he
            · exact benign95
            rcases List.mem_singleton.1 he with rfl
            exact benignEffect_uploadFile _
    · left
      refine ⟨"Download failed: " ++ o.stderrText, ?_, ?_⟩
      · simp [downloadVideoWithValidationBody, hsel, hex]
      · simp only [downloadVideoWithValidationBody, hsel, hex, not_false_iff, if_true,
          List.cons_append, List.nil_append]
        simpa using benignPre selRes

/-! ## Case analysis of the part_004 pipeline body -/

lemma hasUploadEffect_eq_false {t : List Effect}
    (h : ∀ e ∈ t, ∀ k, e ≠ Effect.uploadFile k) : hasUploadEffect t = false := by
  simp only [hasUploadEffect, List.any_eq_false]
  intro e he
  rcases e with u | args | k | k | p <;> simp
  exact absurd rfl (h _ he k)

lemma hasDeleteEffect_eq_false {t : List Effect}
    (h : ∀ e ∈ t, ∀ p, e ≠ Effect.deleteFile p) : hasDeleteEffect t = false := by
  simp only [hasDeleteEffect, List.any_eq_false]
  intro e he
  rcases e with u | args | k | k | p <;> simp
  exact absurd rfl (h _ he p)

lemma hasCompletedWrite_eq_false_of_benign {t : List Effect}
    (h : ∀ e ∈ t, benignEffect e) : hasCompletedWrite t = false := by
  simp only [hasCompletedWrite, List.any_eq_false]
  intro e he
  rcases e with u | args | k | k | p <;> simp
  rw [(h _ he u rfl).1]
  simp

/-- Effects produced inside the retry loop: benign database writes and spawns
only — no uploads, no deletions, no terminal writes. -/
def loopEffect (e : Effect) : Prop :=
  benignEffect e ∧ (∀ k, e ≠ Effect.uploadFile k) ∧ ∀ p, e ≠ Effect.deleteFile p

lemma loopEffect_spawn (args : List String) : loopEffect (Effect.spawn args) := by
  refine ⟨benignEffect_spawn args, ?_, ?_⟩ <;> simp

lemma loopEffect_progressUpdate {p : ℚ} (h0 : 0 ≤ p) (h1 : p < 100) :
    loopEffect (progressUpdate p) := by
  refine ⟨benignEffect_progressUpdate h0 h1, ?_, ?_⟩ <;> simp [progressUpdate]

lemma executeDownloadLoopAux_effects (o : Part004Oracle) (args : List String) :
    ∀ (rem : ℕ) (res : String) (attempts : ℕ),
      ∀ e ∈ (executeDownloadLoopAux o args res attempts rem).1, loopEffect e := by
  intro rem
  induction rem with
  | zero =>
    intro res attempts e he
    simp [executeDownloadLoopAux] at he
  | succ r ih =>
    intro res attempts e he
    have hmon : ∀ x ∈ (monitorDownloadWithTimeoutRun 15
        (o.attemptChunks (attempts + 1))).map progressUpdate, loopEffect x := by
      intro x hx
      rw [List.mem_map] at hx
      obtain ⟨p, hp, rfl⟩ := hx
      have := monitorDownloadWithTimeoutRun_mem p hp
      exact loopEffect_progressUpdate (by linarith [this.1]) (by linarith [this.2])
    rcases hout : o.attemptOutcome (attempts + 1) with path | _ | msg
    · simp only [executeDownloadLoopAux, hout] at he
      rcases List.mem_cons.1 he with rfl | he
      · exact loopEffect_spawn args
      · exact hmon e he
    · simp only [executeDownloadLoopAux, hout] at he
      rcases List.mem_cons.1 he with rfl | he
      · exact loopEffect_spawn args
      rcases List.mem_append.1 he with he | he
      · exact hmon e he
      · exact ih res (attempts + 1) e he
    · by_cases h3 : attempts + 1 < 3
      · simp only [executeDownloadLoopAux, hout, if_pos h3] at he
        rcases List.mem_cons.1 he with rfl | he
        · exact loopEffect_spawn args
        rcases List.mem_append.1 he with he | he
        · exact hmon e he
        rcases List.mem_cons.1 he with rfl | he
        · refine loopEffect_progressUpdate (by positivity) ?_
          have : attempts + 1 ≤ 2 := by omega
          have hcast : ((10 + (attempts + 1) * 5 : ℕ) : ℚ) ≤ ((20 : ℕ) : ℚ) := by
            exact_mod_cast Nat.add_le_add_left (Nat.mul_le_mul_right 5 this) 10
          have : ((20 : ℕ) : ℚ) < 100 := by norm_num
          linarith
        · exact ih (degradeResolution res) (attempts + 1) e he
      · simp only [executeDownloadLoopAux, hout, if_neg h3] at he
        rcases List.mem_cons.1 he with rfl | he
        · exact loopEffect_spawn args
        rcases List.mem_append.1 he with he | he
        · exact hmon e he
        · exact ih res (attempts + 1) e he

/-- Every run of the try-block of `downloadVideoProcess` either throws
(leaving only benign effects behind) or reaches the completed write, in which
case the environment was available, the artifact passed `verifyFileIntegrity`
and the final size guard, the upload and the signed-URL issuance succeeded,
and the trace ends with upload, URL issuance, completed write and cleanup in
that order after only benign effects. -/
lemma part004Body_spec (o : Part004Oracle) (url quality : String) :
    (∃ msg, (downloadVideoProcessBody o url quality).2 = Except.error msg ∧
       ∀ e ∈ (downloadVideoProcessBody o url quality).1, benignEffect e)
  ∨ (∃ path pre,
       o.envFailure = none ∧
       verifyFileIntegrity o.fileSize o.fileHeader (parseQuality quality).2 = Except.ok () ∧
       ¬ o.fileSize < 10000 ∧ o.uploadOk = true ∧ o.signUrlOk = true ∧
       (downloadVideoProcessBody o url quality).2 = Except.ok () ∧
       (downloadVideoProcessBody o url quality).1
         = pre ++ [progressUpdate 90,
                   Effect.uploadFile (storageKeyPart004 o (parseQuality quality).2 path),
                   Effect.signUrl (storageKeyPart004 o (parseQuality quality).2 path),
                   completedUpdate o.signedUrl,
                   Effect.deleteFile path] ∧
       (∀ e ∈ pre, benignEffect e)) := by
  have benign8 : benignEffect (progressUpdate 8) :=
    benignEffect_progressUpdate (by norm_num) (by norm_num)
  have benign15 : benignEffect (progressUpdate 15) :=
    benignEffect_progressUpdate (by norm_num) (by norm_num)
  have benign90 : benignEffect (progressUpdate 90) :=
    benignEffect_progressUpdate (by norm_num) (by norm_num)
  rcases henv : o.envFailure with _ | msg
  case some =>
    left
    refine ⟨msg, ?_, ?_⟩
    · simp [downloadVideoProcessBody, henv]
    · simp only [downloadVideoProcessBody, henv]
      intro e he
      rcases List.mem_singleton.1 he with rfl
      exact benign8
  case none =>
  rcases hloop : executeDownloadLoopAux o
      (buildEnhancedDownloadCommand url (parseQuality quality).1 (parseQuality quality).2)
      (parseQuality quality).1 0 3 with ⟨tr, res2⟩
  have benignTr : ∀ e ∈ tr, benignEffect e := by
    intro e he
    have := executeDownloadLoopAux_effects o _ 3 (parseQuality quality).1 0 e
      (by rw [hloop]; exact he)
    exact this.1
  have benignPre : ∀ e ∈ progressUpdate 8 :: progressUpdate 15 :: tr, benignEffect e := by
    intro e he
    rcases List.mem_cons.1 he with rfl | he
    · exact benign8
    rcases List.mem_cons.1 he with rfl | he
    · exact benign15
    exact benignTr e he
  rcases res2 with msg | path
  · left
    refine ⟨msg, ?_, ?_⟩
    · simp [downloadVideoProcessBody, henv, executeDownloadWithValidation, hloop]
    · simp only [downloadVideoProcessBody, henv, executeDownloadWithValidation, hloop,
        List.cons_append, List.nil_append, List.singleton_append]
      simpa using benignPre
  · by_cases hpath : path = ""
    · left
      refine ⟨"Download failed - no valid file created", ?_, ?_⟩
      · simp [downloadVideoProcessBody, henv, executeDownloadWithValidation, hloop, hpath]
      · simp only [downloadVideoProcessBody, henv, executeDownloadWithValidation, hloop,
          hpath, if_pos rfl, List.cons_append, List.nil_append, List.singleton_append]
        simpa using benignPre
    · rcases hverify : verifyFileIntegrity o.fileSize o.fileHeader (parseQuality quality).2
        with vmsg | u
      · left
        refine ⟨"File verification failed: " ++ vmsg, ?_, ?_⟩
        · simp [downloadVideoProcessBody, henv, executeDownloadWithValidation, hloop,
            hpath, hverify]
        · simp only [downloadVideoProcessBody, henv, executeDownloadWithValidation, hloop,
            hpath, hverify, if_neg hpath, List.cons_append, List.nil_append,
            List.singleton_append]
          simpa using benignPre
      · by_cases hsize : o.fileSize < 10000
        · left
          refine ⟨"File too small for upload (" ++ toString o.fileSize
            ++ " bytes) - corrupted download", ?_, ?_⟩
          · simp [downloadVideoProcessBody, henv, executeDownloadWithValidation, hloop,
              hpath, hverify, uploadAndComplete, hsize]
          · simp only [downloadVideoProcessBody, henv, executeDownloadWithValidation, hloop,
              hpath, hverify, uploadAndComplete, hsize, if_neg hpath, if_pos hsize]
            intro e he
            rcases List.mem_append.1 he with he | he
            · exact benignPre e (by simpa using he)
            rcases List.mem_singleton.1 he with rfl
            exact benign90
        · by_cases hup : o.uploadOk = true
          · by_cases hsign : o.signUrlOk = true
            · right
              refine ⟨path, progressUpdate 8 :: progressUpdate 15 :: tr,
                rfl, ?_, hsize, hup, hsign, ?_, ?_, benignPre⟩
              · rfl
              · simp [downloadVideoProcessBody, henv, executeDownloadWithValidation, hloop,
                  hpath, hverify, uploadAndComplete, hsize, hup, hsign]
              · simp [downloadVideoProcessBody, henv, executeDownloadWithValidation, hloop,
                  hpath, hverify, uploadAndComplete, hsize, hup, hsign]
            · left
              refine ⟨"Failed to generate download URL", ?_, ?_⟩
              · simp [downloadVideoProcessBody, henv, executeDownloadWithValidation, hloop,
                  hpath, hverify, uploadAndComplete, hsize, hup, hsign]
              · simp only [downloadVideoProcessBody, henv, executeDownloadWithValidation,
                  hloop, hpath, hverify, uploadAndComplete, hsize, hup, hsign, if_neg hpath,
                  if_neg hsize, not_true, not_false_iff, if_true, if_false]
                intro e he
                rcases List.mem_append.1 he with he | he
                · exact benignPre e (by simpa using he)
                rcases List.mem_cons.1 he with rfl | he
                · exact benign90
                rcases List.mem_cons.1 he with rfl | he
                · exact benignEffect_uploadFile _
                rcases List.mem_singleton.1 he with rfl
                exact benignEffect_signUrl _
          · left
            refine ⟨"Upload failed: " ++ o.uploadErrorText, ?_, ?_⟩
            · simp [downloadVideoProcessBody, henv, executeDownloadWithValidation, hloop,
                hpath, hverify, uploadAndComplete, hsize, hup]
            · simp only [downloadVideoProcessBody, henv, executeDownloadWithValidation,
                hloop, hpath, hverify, uploadAndComplete, hsize, hup, if_neg hpath,
                if_neg hsize, not_true, not_false_iff, if_true, if_false]
              intro e he
              rcases List.mem_append.1 he with he | he
              · exact benignPre e (by simpa using he)
              rcases List.mem_cons.1 he with rfl | he
              · exact benign90
              rcases List.mem_singleton.1 he with rfl
              exact benignEffect_uploadFile _

/-! ## Derived pipeline facts -/

lemma terminalCount_successTail (p : ℚ) (k1 k2 u d : String) :
    terminalCount [progressUpdate p, Effect.uploadFile k1, Effect.signUrl k2,
      completedUpdate u, Effect.deleteFile d] = 1 := by
  simp [terminalCount, isTerminalWrite, progressUpdate, completedUpdate, List.filter]

lemma statusFrom_successTail (s : JobStatus) (p : ℚ) (k1 k2 u d : String) :
    statusFrom s [progressUpdate p, Effect.uploadFile k1, Effect.signUrl k2,
      completedUpdate u, Effect.deleteFile d] = JobStatus.completed := by
  simp [statusFrom, applyStatus, progressUpdate, completedUpdate]

/-- The failure boundary of `downloadVideoWithValidation` guarantees one
terminal write and a terminal final status on every run. -/
lemma downloadVideoWithValidation_terminal (o : IndexOracle) (url quality : String) :
    terminalCount (downloadVideoWithValidation o url quality) = 1
    ∧ (statusFrom JobStatus.downloading (downloadVideoWithValidation o url quality)
         = JobStatus.completed
       ∨ statusFrom JobStatus.downloading (downloadVideoWithValidation o url quality)
         = JobStatus.failed) := by
  rcases indexBody_spec o url quality with ⟨msg, hres, hben⟩ |
    ⟨file, pre, hfind, hex, hup, hsign, hres, hshape, hben⟩
  · have heq : downloadVideoWithValidation o url quality
        = (downloadVideoWithValidationBody o url quality).1 ++ [failedUpdate msg] := by
      simp [downloadVideoWithValidation, hres]
    rw [heq]
    constructor
    · rw [terminalCount_append, terminalCount_eq_zero_of_benign hben]
      simp [terminalCount, isTerminalWrite, failedUpdate, List.filter]
    · right
      rw [statusFrom_append, statusFrom_of_benign _ hben]
      simp [statusFrom, applyStatus, failedUpdate]
  · have heq : downloadVideoWithValidation o url quality
        = (downloadVideoWithValidationBody o url quality).1 := by
      simp [downloadVideoWithValidation, hres]
    rw [heq, hshape]
    constructor
    · rw [terminalCount_append, terminalCount_eq_zero_of_benign hben,
        terminalCount_successTail]
    · left
      rw [statusFrom_append, statusFrom_of_benign _ hben, statusFrom_successTail]

/-- The failure boundary of `downloadVideoProcess` guarantees one terminal
write and a terminal final status on every run. -/
lemma downloadVideoProcess_terminal (o : Part004Oracle) (url quality : String) :
    terminalCount (downloadVideoProcess o url quality) = 1
    ∧ (statusFrom JobStatus.downloading (downloadVideoProcess o url quality)
         = JobStatus.completed
       ∨ statusFrom JobStatus.downloading (downloadVideoProcess o url quality)
         = JobStatus.failed) := by
  rcases part004Body_spec o url quality with ⟨msg, hres, hben⟩ |
    ⟨path, pre, henv, hverify, hsize, hup, hsign, hres, hshape, hben⟩
  · have heq : downloadVideoProcess o url quality
        = (downloadVideoProcessBody o url quality).1 ++ [failedUpdate msg] := by
      simp [downloadVideoProcess, hres]
    rw [heq]
    constructor
    · rw [terminalCount_append, terminalCount_eq_zero_of_benign hben]
      simp [terminalCount, isTerminalWrite, failedUpdate, List.filter]
    · right
      rw [statusFrom_append, statusFrom_of_benign _ hben]
      simp [statusFrom, applyStatus, failedUpdate]
  · have heq : downloadVideoProcess o url quality
        = (downloadVideoProcessBody o url quality).1 := by
      simp [downloadVideoProcess, hres]
    rw [heq, hshape]
    constructor
    · rw [terminalCount_append, terminalCount_eq_zero_of_benign hben,
        terminalCount_successTail]
    · left
      rw [statusFrom_append, statusFrom_of_benign _ hben, statusFrom_successTail]

/-- C1: for every combination of external outcomes (tool missing, subprocess
crash or timeout, missing artifact, validation failure, upload failure,
URL-issuance failure, or full success), each pipeline run performs exactly
one terminal status write — the top-level catch converts every unhandled
fault into the single failed write — and the job's final status is
`completed` or `failed`, never `pending` or `downloading`.  Proved for both
cited pipelines: `downloadVideoWithValidation` (index.ts) behind its serving
wrapper, and `downloadVideoProcess` (part_004) behind its serving wrapper. -/
theorem c1_exactly_one_terminal_write (oi : IndexOracle) (op : Part004Oracle)
    (url quality : String) :
    (terminalCount (indexServeTrace oi url quality) = 1
     ∧ (finalStatus (indexServeTrace oi url quality) = JobStatus.completed
        ∨ finalStatus (indexServeTrace oi url quality) = JobStatus.failed))
  ∧ (terminalCount (part004ServeTrace op url quality) = 1
     ∧ (finalStatus (part004ServeTrace op url quality) = JobStatus.completed
        ∨ finalStatus (part004ServeTrace op url quality) = JobStatus.failed)) := by
  have hdown : ∀ (p : ℚ) (t : List Effect),
      finalStatus (downloadingWrite p :: t) = statusFrom JobStatus.downloading t := by
    intro p t
    simp [finalStatus, statusFrom, applyStatus, downloadingWrite]
  have hdownTerm : ∀ p : ℚ, isTerminalWrite (downloadingWrite p) = false := by
    intro p
    simp [isTerminalWrite, downloadingWrite]
  constructor
  · by_cases ha : oi.ytDlpAvailable = true
    · have h := downloadVideoWithValidation_terminal oi url quality
      constructor
      · rw [indexServeTrace, if_pos ha, terminalCount_cons, hdownTerm]
        simpa using h.1
      · rw [indexServeTrace, if_pos ha, hdown]
        exact h.2
    · rw [indexServeTrace, if_neg ha]
      constructor
      · rw [terminalCount_cons, hdownTerm]
        simp [terminalCount, isTerminalWrite, failedUpdate, List.filter]
      · right
        rw [hdown]
        simp [statusFrom, applyStatus, failedUpdate]
  · have h := downloadVideoProcess_terminal op url quality
    constructor
    · rw [part004ServeTrace, terminalCount_cons, hdownTerm]
      simpa using h.1
    · rw [part004ServeTrace, hdown]
      exact h.2

/-! ## C2: progress/completed invariants -/

/-- The effect trace of `simulateDownload` (`index.ts` lines 37-76) preceded
by its serve handler's downloading write (lines 26-34): ten progress-only
writes of `(i / 10) * 100` for the loop counter `i = 1..10`, then a
completed write that sets progress 100 and a file-size string but no
retrieval URL. -/
def simulateDownloadJobTrace : List Effect :=
  downloadingWrite 0 ::
    (([1, 2, 3, 4, 5, 6, 7, 8, 9, 10] : List ℚ).map
        (fun i => progressUpdate ((i / 10) * 100))
      ++ [Effect.update { status := some JobStatus.completed, progress := some 100 }])

/-- Each database update of a trace paired with the job's status at the
moment the update is issued (starting from `pending`). -/
def updatesWithStatusBefore (t : List Effect) : List (JobStatus × JobUpdate) :=
  (t.foldl (fun acc e =>
    match e with
    | Effect.update u => (acc.1 ++ [(acc.2, u)], u.status.getD acc.2)
    | _ => acc) ([], JobStatus.pending)).1

/-- C2 counterexample: in the `simulateDownload` variant the tenth progress
step issues an update carrying progress 100 and no status field while the
job's status is still `downloading`, and the completed write carries no
retrieval URL (its `download_url` field is `none`) — so the claim,
quantified over every job of the repository, fails on this code path. -/
theorem c2_counterexample_simulateDownload :
    (JobStatus.downloading, ({ progress := some 100 } : JobUpdate))
        ∈ updatesWithStatusBefore simulateDownloadJobTrace
    ∧ Effect.update { status := some JobStatus.completed, progress := some 100 }
        ∈ simulateDownloadJobTrace
    ∧ ({ status := some JobStatus.completed, progress := some 100 }
        : JobUpdate).download_url = none := by
  refine ⟨?_, ?_, rfl⟩
  · norm_num [updatesWithStatusBefore, simulateDownloadJobTrace, downloadingWrite,
      progressUpdate]
  · norm_num [simulateDownloadJobTrace]

lemma drop_length_sub_five {l₁ l₂ : List Effect} (h : l₂.length = 5) :
    (l₁ ++ l₂).drop ((l₁ ++ l₂).length - 5) = l₂ := by
  have hlen : (l₁ ++ l₂).length - 5 = l₁.length := by
    rw [List.length_append, h]
    omega
  rw [hlen, List.drop_left]

lemma successTail_update_cases (o : IndexOracle) (fmt : String) (file : DirEntryFile)
    {u : JobUpdate} (hu : Effect.update u ∈ [progressUpdate 95,
      Effect.uploadFile (storageKeyIndex o fmt file),
      Effect.signUrl (storageKeyIndex o fmt file),
      completedUpdate o.signedUrl, Effect.deleteFile ("/tmp/" ++ file.name)]) :
    u = ({ progress := some 95 } : JobUpdate)
    ∨ u = ({ status := some JobStatus.completed, progress := some 100,
             download_url := some o.signedUrl } : JobUpdate) := by
  simp only [progressUpdate, completedUpdate] at hu ⊢
  simp at hu ⊢
  tauto

/-- C2 (amended): restricted to the validated pipeline
(`downloadVideoWithValidation` / `uploadAndFinalize`) the claim holds: every
completed write carries progress 100 and the signed retrieval URL; the job
finishes `completed` only when the subprocess exit, the artifact
location/validation, the upload and the signed-URL issuance all succeeded,
and in that case the trace ends with upload, URL issuance, completed write
and cleanup, in that order; every persisted progress value lies in [0, 100];
and progress 100 is written only by the completed write.  The
`simulateDownload` variant violates the original claim (see the
counterexample): it writes progress 100 while status is `downloading` and
completes without a retrieval URL. -/
theorem c2_amended_completed_invariants (o : IndexOracle) (url quality : String) :
    (∀ u : JobUpdate, Effect.update u ∈ indexServeTrace o url quality →
        u.status = some JobStatus.completed →
        u.progress = some 100 ∧ u.download_url = some o.signedUrl)
  ∧ (finalStatus (indexServeTrace o url quality) = JobStatus.completed →
        o.exitSuccess = true ∧ o.uploadOk = true ∧ o.signUrlOk = true ∧
        ∃ file, findAndValidateDownloadedFile (parseQuality quality).2 o.dir
          = Except.ok file)
  ∧ (finalStatus (indexServeTrace o url quality) = JobStatus.completed →
      ∃ file, findAndValidateDownloadedFile (parseQuality quality).2 o.dir
          = Except.ok file ∧
        (indexServeTrace o url quality).drop ((indexServeTrace o url quality).length - 5)
          = [progressUpdate 95,
             Effect.uploadFile (storageKeyIndex o (parseQuality quality).2 file),
             Effect.signUrl (storageKeyIndex o (parseQuality quality).2 file),
             completedUpdate o.signedUrl,
             Effect.deleteFile ("/tmp/" ++ file.name)])
  ∧ (∀ u : JobUpdate, Effect.update u ∈ indexServeTrace o url quality →
        ∀ p : ℚ, u.progress = some p → 0 ≤ p ∧ p ≤ 100)
  ∧ (∀ u : JobUpdate, Effect.update u ∈ indexServeTrace o url quality →
        u.progress = some 100 → u.status = some JobStatus.completed) := by
  by_cases ha : o.ytDlpAvailable = true
  · rcases indexBody_spec o url quality with ⟨msg, hres, hben⟩ |
      ⟨file, pre, hfind, hex, hup, hsign, hres, hshape, hben⟩
    · -- failure run: trace = downloading :: body ++ [failed]
      have htr : indexServeTrace o url quality
          = downloadingWrite 0 :: ((downloadVideoWithValidationBody o url quality).1
              ++ [failedUpdate msg]) := by
        simp [indexServeTrace, ha, downloadVideoWithValidation, hres]
      have hfinal : finalStatus (indexServeTrace o url quality) = JobStatus.failed := by
        rw [htr]
        show statusFrom JobStatus.pending _ = _
        rw [show statusFrom JobStatus.pending (downloadingWrite 0 :: _)
            = statusFrom JobStatus.downloading ((downloadVideoWithValidationBody o url quality).1
              ++ [failedUpdate msg]) from rfl,
          statusFrom_append, statusFrom_of_benign _ hben]
        simp [statusFrom, applyStatus, failedUpdate]
      have hmem : ∀ u : JobUpdate, Effect.update u ∈ indexServeTrace o url quality →
          u = ({ status := some JobStatus.downloading, progress := some 0 } : JobUpdate)
          ∨ (u.status = none ∧ ∀ p : ℚ, u.progress = some p → 0 ≤ p ∧ p < 100)
          ∨ u = ({ status := some JobStatus.failed, progress := some 0,
                   error_message := some msg } : JobUpdate) := by
        intro u hu
        rw [htr] at hu
        rcases List.mem_cons.1 hu with h | hu
        · left
          rw [downloadingWrite] at h
          injection h
        rcases List.mem_append.1 hu with hu | hu
        · right; left
          exact hben _ hu u rfl
        · right; right
          rcases List.mem_singleton.1 hu with h
          rw [failedUpdate] at h
          injection h
      refine ⟨?_, ?_, ?_, ?_, ?_⟩
      · intro u hu hst
        rcases hmem u hu with rfl | ⟨h1, _⟩ | rfl <;> simp_all
      · intro hc
        rw [hfinal] at hc
        cases hc
      · intro hc
        rw [hfinal] at hc
        cases hc
      · intro u hu p hp
        rcases hmem u hu with rfl | ⟨_, h2⟩ | rfl
        · simp only [Option.some.injEq] at hp
          subst hp
          norm_num
        · have := h2 p hp
          exact ⟨this.1, le_of_lt this.2⟩
        · simp only [Option.some.injEq] at hp
          subst hp
          norm_num
      · intro u hu hp
        rcases hmem u hu with rfl | ⟨_, h2⟩ | rfl
        · simp only [Option.some.injEq] at hp
          norm_num at hp
        · have := (h2 100 hp).2
          norm_num at this
        · simp only [Option.some.injEq] at hp
          norm_num at hp
    · -- success run
      have htr : indexServeTrace o url quality
          = (downloadingWrite 0 :: pre) ++ [progressUpdate 95,
             Effect.uploadFile (storageKeyIndex o (parseQuality quality).2 file),
             Effect.signUrl (storageKeyIndex o (parseQuality quality).2 file),
             completedUpdate o.signedUrl,
             Effect.deleteFile ("/tmp/" ++ file.name)] := by
        simp [indexServeTrace, ha, downloadVideoWithValidation, hres, hshape]
      have hmem : ∀ u : JobUpdate, Effect.update u ∈ indexServeTrace o url quality →
          u = ({ status := some JobStatus.downloading, progress := some 0 } : JobUpdate)
          ∨ (u.status = none ∧ ∀ p : ℚ, u.progress = some p → 0 ≤ p ∧ p < 100)
          ∨ u = ({ progress := some 95 } : JobUpdate)
          ∨ u = ({ status := some JobStatus.completed, progress := some 100,
                   download_url := some o.signedUrl } : JobUpdate) := by
        intro u hu
        rw [htr] at hu
        rcases List.mem_append.1 hu with hu | hu
        · rcases List.mem_cons.1 hu with h | hu
          · left
            rw [downloadingWrite] at h
            injection h
          · right; left
            exact hben _ hu u rfl
        · right; right
          exact successTail_update_cases o _ file hu
      refine ⟨?_, ?_, ?_, ?_, ?_⟩
      · intro u hu hst
        rcases hmem u hu with rfl | ⟨h1, _⟩ | rfl | rfl <;> simp_all
      · intro _
        exact ⟨hex, hup, hsign, file, hfind⟩
      · intro _
        refine ⟨file, hfind, ?_⟩
        rw [htr]
        exact drop_length_sub_five rfl
      · intro u hu p hp
        rcases hmem u hu with rfl | ⟨_, h2⟩ | rfl | rfl
        · simp only [Option.some.injEq] at hp
          subst hp
          norm_num
        · have := h2 p hp
          exact ⟨this.1, le_of_lt this.2⟩
        · simp only [Option.some.injEq] at hp
          subst hp
          norm_num
        · simp only [Option.some.injEq] at hp
          subst hp
          norm_num
      · intro u hu hp
        rcases hmem u hu with rfl | ⟨_, h2⟩ | rfl | rfl
        · simp only [Option.some.injEq] at hp
          norm_num at hp
        · have := (h2 100 hp).2
          norm_num at this
        · simp only [Option.some.injEq] at hp
          norm_num at hp
        · rfl
  · -- tool unavailable: trace = [downloading, failed]
    have htr : indexServeTrace o url quality = [downloadingWrite 0,
        failedUpdate "Video downloader not available. Please try again later."] := by
      simp [indexServeTrace, ha]
    have hfinal : finalStatus (indexServeTrace o url quality) = JobStatus.failed := by
      rw [htr]
      simp [finalStatus, statusFrom, applyStatus, downloadingWrite, failedUpdate]
    have hmem : ∀ u : JobUpdate, Effect.update u ∈ indexServeTrace o url quality →
        u = ({ status := some JobStatus.downloading, progress := some 0 } : JobUpdate)
        ∨ u = ({ status := some JobStatus.failed, progress := some 0,
                 error_message := some "Video downloader not available. Please try again later." }
               : JobUpdate) := by
      intro u hu
      rw [htr] at hu
      rcases List.mem_cons.1 hu with h | hu
      · left
        rw [downloadingWrite] at h
        injection h
      · right
        rcases List.mem_singleton.1 hu with h
        rw [failedUpdate] at h
        injection h
    refine ⟨?_, ?_, ?_, ?_, ?_⟩
    · intro u hu hst
      rcases hmem u hu with rfl | rfl <;> simp_all
    · intro hc
      rw [hfinal] at hc
      cases hc
    · intro hc
      rw [hfinal] at hc
      cases hc
    · intro u hu p hp
      rcases hmem u hu with rfl | rfl <;>
        (simp only [Option.some.injEq] at hp
         subst hp
         norm_num)
    · intro u hu hp
      rcases hmem u hu with rfl | rfl <;>
        (simp only [Option.some.injEq] at hp
         norm_num at hp)

/-- An index.ts oracle for a fully successful run (clean exit, one valid
5 MB artifact, upload and URL issuance succeed). -/
def c2SuccessOracle : IndexOracle :=
  { ytDlpAvailable := true, availableHeights := [], monitorChunks := [],
    exitSuccess := true, stderrText := "", dir := [⟨"proper_video_file.mp4", 5000000, 0⟩],
    uploadOk := true, uploadErrorText := "", signUrlOk := true,
    signedUrl := "https://signed.example/u", jobId := "job-7", timestampMs := 0 }

/-- Witness for the amended C2 theorem at a concrete fully successful run:
the job finishes `completed` there, and the theorem yields that the
subprocess succeeded, the upload and URL issuance succeeded, and the
artifact was located and validated. -/
theorem c2_amended_completed_invariants_witness :
    c2SuccessOracle.exitSuccess = true ∧ c2SuccessOracle.uploadOk = true
    ∧ c2SuccessOracle.signUrlOk = true
    ∧ ∃ file, findAndValidateDownloadedFile (parseQuality "1080p_both").2 c2SuccessOracle.dir
        = Except.ok file :=
  (c2_amended_completed_invariants c2SuccessOracle "https://example.com/v"
    "1080p_both").2.1 (by decide)

/-! ## C3: monotone, capped download-phase progress -/

/-- C3: for every chunk stream of one job attempt, the sequence of progress
values persisted by the download-phase monitor is non-decreasing (each
accepted candidate strictly exceeds the previously persisted value, which
also realises the lower clamp by the running maximum) and never exceeds 90:
`monitorDownloadProgress` (index.ts) clamps candidates to at most 90 and
`monitorDownloadWithTimeout` (part_004) clamps to at most 85, reserving the
tail of the bar for validation and upload. -/
theorem c3_progress_monotone_and_capped (cs : List (Option ℚ)) :
    ((monitorDownloadProgressRun 10 cs).Pairwise (· ≤ ·)
     ∧ ∀ x ∈ monitorDownloadProgressRun 10 cs, x ≤ 90)
  ∧ ((monitorDownloadWithTimeoutRun 15 cs).Pairwise (· ≤ ·)
     ∧ ∀ x ∈ monitorDownloadWithTimeoutRun 15 cs, x ≤ 90) := by
  refine ⟨⟨(monitorDownloadProgressRun_pairwise 10 cs).imp le_of_lt, ?_⟩,
          ⟨(monitorDownloadWithTimeoutRun_pairwise 15 cs).imp le_of_lt, ?_⟩⟩
  · intro x hx
    exact (monitorDownloadProgressRun_mem x hx).2
  · intro x hx
    exact le_trans (monitorDownloadWithTimeoutRun_mem x hx).2 (by norm_num)

/-- Witness for C3 at a concrete chunk stream: the stream
`[some 50, none, some 95]` persists `[50, 90]` in the index.ts monitor and
`[50, 85]` in the part_004 monitor, and the claim instance bounds hold. -/
theorem c3_progress_monotone_and_capped_witness : (50 : ℚ) ≤ 90 ∧ (85 : ℚ) ≤ 90 := by
  constructor
  · exact (c3_progress_monotone_and_capped [some 50, none, some 95]).1.2 50
      (by norm_num [monitorDownloadProgressRun])
  · exact (c3_progress_monotone_and_capped [some 50, none, some 95]).2.2 85
      (by norm_num [monitorDownloadWithTimeoutRun])

/-! ## C9: rate-limited persistence (part_002 monitor) -/

set_option maxRecDepth 8000 in
/-- C9: the part_002 monitor persists a parsed percentage only when it has
advanced by more than 1 point over the last persisted value or more than
2000 ms have elapsed since the last persisted update; unparseable chunks are
ignored without any write or state change; and feeding 100 progress lines
0.1 points apart within under a second persists only 10 updates — far fewer
than the 100 lines. -/
theorem c9_rate_limited_persistence :
    (∀ (st : RateLimitState) (t : ℕ), rateLimitStep st t none = (st, false))
  ∧ (∀ (st : RateLimitState) (t : ℕ) (c : ℚ),
      ((rateLimitStep st t (some c)).2 = true
        ↔ (st.downloadProgress + 1 < min c 90 ∨ 2000 < t - st.lastUpdateTime)))
  ∧ denseProgressLines.length = 100
  ∧ (rateLimitRun ⟨5, 0⟩ denseProgressLines).length = 10 := by
  refine ⟨fun st t => rfl, fun st t c => ?_, by norm_num [denseProgressLines], ?_⟩
  · simp only [rateLimitStep]
    by_cases h : st.downloadProgress + 1 < min c 90 ∨ 2000 < t - st.lastUpdateTime
    · rw [if_pos h]
      simpa using h
    · rw [if_neg h]
      simpa using h
  · norm_num [denseProgressLines, List.range_succ, rateLimitRun, rateLimitStep]

/-! ## C4: format selector construction -/

/-- C4: the command builder maps `4K` to the height ceiling token `2160` and
`<N>p` tokens to `N`; an audio request gets an audio-only extraction command
whose selector carries no height constraint; a video request gets a selector
whose every alternative is capped at the requested height; and a `both`
request gets a combined selector capped at the requested height whose
fallback chain has three progressively looser alternatives ending in the
unconditional `best`, so the ideal codec/container being absent cannot by
itself exhaust the chain.  (Stated on `buildPreciseDownloadCommand`; the
part_004 `buildEnhancedDownloadCommand` emits the same `both` chain.) -/
theorem c4_selector_construction (url : String) :
    maxHeightToken "4K" = "2160"
  ∧ maxHeightToken "144p" = "144" ∧ maxHeightToken "360p" = "360"
  ∧ maxHeightToken "480p" = "480" ∧ maxHeightToken "720p" = "720"
  ∧ maxHeightToken "1080p" = "1080" ∧ maxHeightToken "1440p" = "1440"
  ∧ buildPreciseDownloadCommand url "4K" "audio"
      = ["--no-warnings", "--newline", "--progress", "--no-playlist",
         "--socket-timeout", "30", "--output", "/tmp/%(title)s_%(id)s.%(ext)s",
         "--extract-audio", "--audio-format", "mp3", "--audio-quality", "0",
         "--format", "bestaudio/best"] ++ [url]
  ∧ strContains "bestaudio/best" "height" = false
  ∧ buildPreciseDownloadCommand url "720p" "video"
      = ["--no-warnings", "--newline", "--progress", "--no-playlist",
         "--socket-timeout", "30", "--output", "/tmp/%(title)s_%(id)s.%(ext)s",
         "--format",
         "bestvideo[height<=720][ext=mp4]/bestvideo[height<=720]/best[height<=720]"]
        ++ [url]
  ∧ (splitOnChar '/'
        "bestvideo[height<=720][ext=mp4]/bestvideo[height<=720]/best[height<=720]").all
      (fun alt => strContains alt "height<=720") = true
  ∧ buildPreciseDownloadCommand url "1080p" "both"
      = ["--no-warnings", "--newline", "--progress", "--no-playlist",
         "--socket-timeout", "30", "--output", "/tmp/%(title)s_%(id)s.%(ext)s",
         "--format", "best[height<=1080][ext=mp4]/best[height<=1080]/best"] ++ [url]
  ∧ splitOnChar '/' "best[height<=1080][ext=mp4]/best[height<=1080]/best"
      = ["best[height<=1080][ext=mp4]", "best[height<=1080]", "best"]
  ∧ strContains "best[height<=1080][ext=mp4]" "height<=1080" = true
  ∧ strContains "best[height<=1080][ext=mp4]" "ext=mp4" = true
  ∧ strContains "best[height<=1080]" "height<=1080" = true
  ∧ strContains "best[height<=1080]" "ext=mp4" = false
  ∧ strContains "best" "height" = false
  ∧ strContains "best" "ext=" = false
  ∧ buildEnhancedDownloadCommand url "1080p" "both"
      = ["--no-warnings", "--newline", "--progress", "--no-playlist",
         "--socket-timeout", "30", "--retries", "3", "--fragment-retries", "3",
         "--continue", "--ignore-errors", "--no-abort-on-error",
         "--output", "/tmp/%(title)s_%(uploader)s_%(id)s.%(ext)s", "--verbose",
         "--format", "best[height<=1080][ext=mp4]/best[height<=1080]/best"] ++ [url]
  ∧ strContains "bestaudio[ext=m4a]/bestaudio[ext=mp3]/bestaudio/best" "height" = false := by
  refine ⟨by decide, by decide, by decide, by decide, by decide, by decide, by decide,
    ?_, by decide, ?_, by decide, ?_, by decide, by decide, by decide, by decide,
    by decide, by decide, by decide, ?_, by decide⟩
  · exact congrArg (· ++ [url]) (by decide)
  · exact congrArg (· ++ [url]) (by decide)
  · exact congrArg (· ++ [url]) (by decide)
  · exact congrArg (· ++ [url]) (by decide)

/-! ## C5: artifact signature validation -/

/-- First 16 bytes of a file containing only ASCII text
("This is a text f..."): no container signature matches it. -/
def asciiTextHeader : List ℕ :=
  [0x54, 0x68, 0x69, 0x73, 0x20, 0x69, 0x73, 0x20,
   0x61, 0x20, 0x74, 0x65, 0x78, 0x74, 0x20, 0x66]

/-- A 16-byte ISO-BMFF (`ftyp`) MP4 header. -/
def mp4Header : List ℕ :=
  [0x00, 0x00, 0x00, 0x18, 0x66, 0x74, 0x79, 0x70, 0, 0, 0, 0, 0, 0, 0, 0]

/-- A 16-byte header beginning with an ID3 tag (MP3 family). -/
def id3Header : List ℕ :=
  [0x49, 0x44, 0x33, 0x04, 0, 0, 0, 0, 0, 0, 0, 0, 0, 0, 0, 0]

lemma verifyFileIntegrity_zero (hd : List ℕ) (fmt : String) :
    verifyFileIntegrity 0 hd fmt
      = Except.error "File too small (0 bytes) - likely corrupted" := by
  simp only [verifyFileIntegrity]
  by_cases hfmt : fmt = "audio"
  · rw [if_pos hfmt, if_pos (by norm_num)]
    rfl
  · rw [if_neg hfmt, if_pos (by norm_num)]
    rfl

lemma verifyFileIntegrity_ascii_ne_ok (s : ℕ) (fmt : String)
    (hfalse : verifyFileHeaders asciiTextHeader fmt = false) :
    verifyFileIntegrity s asciiTextHeader fmt ≠ Except.ok () := by
  intro hok
  simp only [verifyFileIntegrity] at hok
  by_cases hs : s < (if fmt = "audio" then 100000 else 1000000)
  · rw [if_pos hs] at hok
    cases hok
  · rw [if_neg hs, hfalse] at hok
    simp at hok

/-- C5: the artifact validator (`verifyFileIntegrity` / `verifyFileHeaders`
of part_004) rejects a zero-byte file as too small for audio, video and
combined requests; rejects a file whose leading bytes are plain ASCII text
(no recognized container signature) for every format class and from every
file size, and since only the leading bytes are inspected the claimed file
extension is irrelevant; accepts a file beginning with the EBML header bytes
`1A 45 DF A3` for video-class requests while rejecting it for audio-only
requests; audio requests accept only the audio signatures (the MP4 `ftyp`
header is rejected) while video/combined requests accept both classes (an
ID3 audio header passes).  The part_002 `validateMediaFile` variant likewise
rejects empty and ASCII-only data. -/
theorem c5_validator_signature_checks :
    (∀ hd : List ℕ,
        verifyFileIntegrity 0 hd "audio"
          = Except.error "File too small (0 bytes) - likely corrupted"
      ∧ verifyFileIntegrity 0 hd "video"
          = Except.error "File too small (0 bytes) - likely corrupted"
      ∧ verifyFileIntegrity 0 hd "both"
          = Except.error "File too small (0 bytes) - likely corrupted")
  ∧ (verifyFileHeaders asciiTextHeader "audio" = false
     ∧ verifyFileHeaders asciiTextHeader "video" = false
     ∧ verifyFileHeaders asciiTextHeader "both" = false)
  ∧ (∀ s : ℕ,
        verifyFileIntegrity s asciiTextHeader "audio" ≠ Except.ok ()
      ∧ verifyFileIntegrity s asciiTextHeader "video" ≠ Except.ok ()
      ∧ verifyFileIntegrity s asciiTextHeader "both" ≠ Except.ok ())
  ∧ (∀ rest : List ℕ,
       verifyFileHeaders (0x1A :: 0x45 :: 0xDF :: 0xA3 :: rest) "video" = true
     ∧ verifyFileHeaders (0x1A :: 0x45 :: 0xDF :: 0xA3 :: rest) "both" = true
     ∧ verifyFileHeaders (0x1A :: 0x45 :: 0xDF :: 0xA3 :: rest) "audio" = false)
  ∧ (verifyFileHeaders mp4Header "video" = true
     ∧ verifyFileHeaders mp4Header "audio" = false
     ∧ verifyFileHeaders id3Header "audio" = true
     ∧ verifyFileHeaders id3Header "both" = true)
  ∧ (validateMediaFile [] "audio" = false ∧ validateMediaFile [] "both" = false
     ∧ validateMediaFile asciiTextHeader "audio" = false
     ∧ validateMediaFile asciiTextHeader "both" = false) := by
  refine ⟨fun hd => ⟨verifyFileIntegrity_zero hd _, verifyFileIntegrity_zero hd _,
      verifyFileIntegrity_zero hd _⟩,
    ⟨by decide, by decide, by decide⟩,
    fun s => ⟨verifyFileIntegrity_ascii_ne_ok s _ (by decide),
      verifyFileIntegrity_ascii_ne_ok s _ (by decide),
      verifyFileIntegrity_ascii_ne_ok s _ (by decide)⟩,
    fun rest => ⟨?_, ?_, ?_⟩,
    ⟨by decide, by decide, by decide, by decide⟩,
    ⟨by decide, by decide, by decide, by decide⟩⟩
  · simp [verifyFileHeaders, videoSignatures, audioSignatures, sigMatches]
  · simp [verifyFileHeaders, videoSignatures, audioSignatures, sigMatches]
  · simp [verifyFileHeaders, videoSignatures, audioSignatures, sigMatches]

/-! ## C6: behaviour on validation failure -/

lemma validateAndSelectFormat_isSome (hs : List ℕ) (r : String) :
    ∃ s, validateAndSelectFormat hs r = some s := by
  cases hs with
  | nil => exact ⟨r, rfl⟩
  | cons x xs =>
    simp only [validateAndSelectFormat]
    split
    · exact ⟨r, rfl⟩
    · exact ⟨_, rfl⟩

lemma indexErrPrefix_no_upload_delete (url selRes fmt : String) (cs : List (Option ℚ)) :
    ∀ e ∈ [progressUpdate 5] ++ progressUpdate 10
        :: Effect.spawn (buildPreciseDownloadCommand url selRes fmt)
        :: (monitorDownloadProgressRun 10 cs).map progressUpdate,
      (∀ k, e ≠ Effect.uploadFile k) ∧ ∀ p, e ≠ Effect.deleteFile p := by
  intro e he
  rcases List.mem_append.1 he with he | he
  · rcases List.mem_singleton.1 he with rfl
    exact ⟨by simp [progressUpdate], by simp [progressUpdate]⟩
  rcases List.mem_cons.1 he with rfl | he
  · exact ⟨by simp [progressUpdate], by simp [progressUpdate]⟩
  rcases List.mem_cons.1 he with rfl | he
  · exact ⟨by simp, by simp⟩
  · rw [List.mem_map] at he
    obtain ⟨p, -, rfl⟩ := he
    exact ⟨by simp [progressUpdate], by simp [progressUpdate]⟩

lemma executeDownloadLoopAux_step_succeeded (o : Part004Oracle) (args : List String)
    (res : String) (attempts rem : ℕ) {path : String}
    (h : o.attemptOutcome (attempts + 1) = AttemptOutcome.succeeded path) :
    executeDownloadLoopAux o args res attempts (rem + 1)
      = (Effect.spawn args :: (monitorDownloadWithTimeoutRun 15
            (o.attemptChunks (attempts + 1))).map progressUpdate,
         Except.ok path) := by
  simp [executeDownloadLoopAux, h]

/-- Oracle for an index.ts run whose subprocess exits cleanly but leaves only
a 500-byte artifact on disk (scenario B of the spec): location succeeds and
size validation rejects the file. -/
def c6Oracle : IndexOracle :=
  { ytDlpAvailable := true, availableHeights := [], monitorChunks := [],
    exitSuccess := true, stderrText := "", dir := [⟨"tiny_download_x.mp4", 500, 0⟩],
    uploadOk := true, uploadErrorText := "", signUrlOk := true,
    signedUrl := "https://signed.example/u", jobId := "job-1", timestampMs := 0 }

/-- C6 counterexample: on the 500-byte-artifact run the job is marked failed
with the too-small validation error, but no file-deletion effect occurs
anywhere in the trace — the offending artifact is not removed from temp
space, contrary to the claim (the only `Deno.remove` call of the pipeline
lives on the success path after upload). -/
theorem c6_counterexample_no_delete_on_validation_failure :
    failedUpdate "Downloaded file is too small, may be corrupted"
        ∈ indexServeTrace c6Oracle "https://example.com/v" "1080p_both"
    ∧ hasDeleteEffect (indexServeTrace c6Oracle "https://example.com/v" "1080p_both")
        = false := by
  constructor <;> decide

/-- C6 (amended): on a validation failure the job is marked failed with the
classified validation error and the invalid artifact is never passed to the
upload stage, but the artifact file is NOT deleted from temp space — no
deletion effect occurs on any failure path (deletion happens only after a
successful upload).  Stated for both cited validators: the locator/size
validator of index.ts and `verifyFileIntegrity` of part_004. -/
theorem c6_amended_validation_failure_behavior
    (o : IndexOracle) (op : Part004Oracle) (url quality msg m2 path : String) :
    (o.ytDlpAvailable = true → o.exitSuccess = true →
     findAndValidateDownloadedFile (parseQuality quality).2 o.dir = Except.error msg →
       failedUpdate msg ∈ indexServeTrace o url quality
       ∧ hasUploadEffect (indexServeTrace o url quality) = false
       ∧ hasDeleteEffect (indexServeTrace o url quality) = false)
  ∧ (op.envFailure = none → op.attemptOutcome 1 = AttemptOutcome.succeeded path →
     path ≠ "" →
     verifyFileIntegrity op.fileSize op.fileHeader (parseQuality quality).2
       = Except.error m2 →
       failedUpdate ("File verification failed: " ++ m2) ∈ part004ServeTrace op url quality
       ∧ hasUploadEffect (part004ServeTrace op url quality) = false
       ∧ hasDeleteEffect (part004ServeTrace op url quality) = false) := by
  constructor
  · intro hA hE hF
    obtain ⟨selRes, hsel⟩ :=
      validateAndSelectFormat_isSome o.availableHeights (parseQuality quality).1
    have hbody : downloadVideoWithValidationBody o url quality
        = ([progressUpdate 5] ++ progressUpdate 10
            :: Effect.spawn (buildPreciseDownloadCommand url selRes (parseQuality quality).2)
            :: (monitorDownloadProgressRun 10 o.monitorChunks).map progressUpdate,
           Except.error msg) := by
      simp [downloadVideoWithValidationBody, hsel, hE, hF]
    have htr : indexServeTrace o url quality
        = downloadingWrite 0 :: (([progressUpdate 5] ++ progressUpdate 10
            :: Effect.spawn (buildPreciseDownloadCommand url selRes (parseQuality quality).2)
            :: (monitorDownloadProgressRun 10 o.monitorChunks).map progressUpdate)
          ++ [failedUpdate msg]) := by
      simp [indexServeTrace, hA, downloadVideoWithValidation, hbody]
    refine ⟨?_, ?_, ?_⟩
    · rw [htr]
      exact List.mem_cons_of_mem _ (List.mem_append_right _ (List.mem_singleton.2 rfl))
    · apply hasUploadEffect_eq_false
      intro e he k
      rw [htr] at he
      rcases List.mem_cons.1 he with rfl | he
      · simp [downloadingWrite]
      rcases List.mem_append.1 he with he | he
      · exact (indexErrPrefix_no_upload_delete url selRes (parseQuality quality).2
          o.monitorChunks e he).1 k
      · rcases List.mem_singleton.1 he with rfl
        simp [failedUpdate]
    · apply hasDeleteEffect_eq_false
      intro e he p
      rw [htr] at he
      rcases List.mem_cons.1 he with rfl | he
      · simp [downloadingWrite]
      rcases List.mem_append.1 he with he | he
      · exact (indexErrPrefix_no_upload_delete url selRes (parseQuality quality).2
          o.monitorChunks e he).2 p
      · rcases List.mem_singleton.1 he with rfl
        simp [failedUpdate]
  · intro hEnv hOut hPath hV
    have hloop : executeDownloadLoopAux op
        (buildEnhancedDownloadCommand url (parseQuality quality).1 (parseQuality quality).2)
        (parseQuality quality).1 0 3
        = (Effect.spawn (buildEnhancedDownloadCommand url (parseQuality quality).1
              (parseQuality quality).2)
            :: (monitorDownloadWithTimeoutRun 15 (op.attemptChunks 1)).map progressUpdate,
           Except.ok path) :=
      executeDownloadLoopAux_step_succeeded op _ _ 0 2 hOut
    have hbody : downloadVideoProcessBody op url quality
        = ([progressUpdate 8] ++ progressUpdate 15
            :: Effect.spawn (buildEnhancedDownloadCommand url (parseQuality quality).1
                (parseQuality quality).2)
            :: (monitorDownloadWithTimeoutRun 15 (op.attemptChunks 1)).map progressUpdate,
           Except.error ("File verification failed: " ++ m2)) := by
      simp [downloadVideoProcessBody, hEnv, executeDownloadWithValidation, hloop, hPath, hV]
    have htr : part004ServeTrace op url quality
        = downloadingWrite 5 :: (([progressUpdate 8] ++ progressUpdate 15
            :: Effect.spawn (buildEnhancedDownloadCommand url (parseQuality quality).1
                (parseQuality quality).2)
            :: (monitorDownloadWithTimeoutRun 15 (op.attemptChunks 1)).map progressUpdate)
          ++ [failedUpdate ("File verification failed: " ++ m2)]) := by
      simp [part004ServeTrace, downloadVideoProcess, hbody]
    have hpre : ∀ e ∈ [progressUpdate 8] ++ progressUpdate 15
        :: Effect.spawn (buildEnhancedDownloadCommand url (parseQuality quality).1
            (parseQuality quality).2)
        :: (monitorDownloadWithTimeoutRun 15 (op.attemptChunks 1)).map progressUpdate,
        (∀ k, e ≠ Effect.uploadFile k) ∧ ∀ p, e ≠ Effect.deleteFile p := by
      intro e he
      rcases List.mem_append.1 he with he | he
      · rcases List.mem_singleton.1 he with rfl
        exact ⟨by simp [progressUpdate], by simp [progressUpdate]⟩
      rcases List.mem_cons.1 he with rfl | he
      · exact ⟨by simp [progressUpdate], by simp [progressUpdate]⟩
      rcases List.mem_cons.1 he with rfl | he
      · exact ⟨by simp, by simp⟩
      · rw [List.mem_map] at he
        obtain ⟨p, -, rfl⟩ := he
        exact ⟨by simp [progressUpdate], by simp [progressUpdate]⟩
    refine ⟨?_, ?_, ?_⟩
    · rw [htr]
      exact List.mem_cons_of_mem _ (List.mem_append_right _ (List.mem_singleton.2 rfl))
    · apply hasUploadEffect_eq_false
      intro e he k
      rw [htr] at he
      rcases List.mem_cons.1 he with rfl | he
      · simp [downloadingWrite]
      rcases List.mem_append.1 he with he | he
      · exact (hpre e he).1 k
      · rcases List.mem_singleton.1 he with rfl
        simp [failedUpdate]
    · apply hasDeleteEffect_eq_false
      intro e he p
      rw [htr] at he
      rcases List.mem_cons.1 he with rfl | he
      · simp [downloadingWrite]
      rcases List.mem_append.1 he with he | he
      · exact (hpre e he).2 p
      · rcases List.mem_singleton.1 he with rfl
        simp [failedUpdate]

/-- A part_004 oracle with an immediate clean first attempt and a bad-header
artifact: used to instantiate the amended C6 theorem. -/
def c6Part004Oracle : Part004Oracle :=
  { envFailure := none, attemptChunks := fun _ => [],
    attemptOutcome := fun _ => AttemptOutcome.succeeded "/tmp/some_media_file.mp4",
    fileSize := 5000000, fileHeader := asciiTextHeader,
    uploadOk := true, uploadErrorText := "", signUrlOk := true,
    signedUrl := "https://signed.example/u", jobId := "job-2", timestampMs := 0 }

/-- Witness for the amended C6 theorem at the concrete 500-byte run and at
the concrete bad-header run. -/
theorem c6_amended_validation_failure_behavior_witness :
    (failedUpdate "Downloaded file is too small, may be corrupted"
        ∈ indexServeTrace c6Oracle "https://example.com/v" "1080p_both"
     ∧ hasUploadEffect (indexServeTrace c6Oracle "https://example.com/v" "1080p_both")
        = false)
    ∧ (failedUpdate ("File verification failed: "
          ++ "File header verification failed - not a valid media file")
        ∈ part004ServeTrace c6Part004Oracle "https://example.com/v" "1080p_both"
     ∧ hasUploadEffect (part004ServeTrace c6Part004Oracle "https://example.com/v" "1080p_both")
        = false) := by
  have h := c6_amended_validation_failure_behavior c6Oracle c6Part004Oracle
    "https://example.com/v" "1080p_both" "Downloaded file is too small, may be corrupted"
    "File header verification failed - not a valid media file" "/tmp/some_media_file.mp4"
  have h1 := h.1 rfl rfl (by decide)
  have h2 := h.2 rfl rfl (by decide) (by decide)
  exact ⟨⟨h1.1, h1.2.1⟩, ⟨h2.1, h2.2.1⟩⟩

/-! ## C7: overall timeout -/

/-- A part_004 oracle whose every subprocess invocation times out
(`monitorDownloadWithTimeout` throws `Download timeout` each attempt). -/
def c7TimeoutOracle : Part004Oracle :=
  { envFailure := none, attemptChunks := fun _ => [],
    attemptOutcome := fun _ => AttemptOutcome.threw "Download timeout",
    fileSize := 0, fileHeader := [], uploadOk := true, uploadErrorText := "",
    signUrlOk := true, signedUrl := "", jobId := "job-3", timestampMs := 0 }

/-- C7: whenever the subprocess streams are not finished strictly before the
configured budget (`exitMs = none`, the process never exits, or
`timeoutMs ≤ exitMs`), the supervisor's race is won by the timeout
rejection: the catch block kills the subprocess and the run reports the
timeout-classified error `Download timeout` — it does not wait on the
streams.  Feeding these timeout throws into the part_004 pipeline, the job
ends `failed` (after the bounded retries, with the attempts-exhausted
message) rather than hanging in `downloading`. -/
theorem c7_timeout_kills_process_and_fails (T : ℕ) (run : ProcessRun)
    (dir : List DirEntryFile) (h : ∀ t, run.exitMs = some t → T ≤ t) :
    (monitorDownloadWithTimeoutResult T run dir).1 = true
    ∧ (monitorDownloadWithTimeoutResult T run dir).2 = Except.error "Download timeout"
    ∧ finalStatus (part004ServeTrace c7TimeoutOracle "https://example.com/v" "1080p_both")
        = JobStatus.failed
    ∧ failedUpdate "Download failed after 3 attempts"
        ∈ part004ServeTrace c7TimeoutOracle "https://example.com/v" "1080p_both" := by
  refine ⟨?_, ?_, by decide, by decide⟩
  · rcases hex : run.exitMs with _ | t
    · simp [monitorDownloadWithTimeoutResult, hex]
    · have ht := h t hex
      simp [monitorDownloadWithTimeoutResult, hex, ht]
  · rcases hex : run.exitMs with _ | t
    · simp [monitorDownloadWithTimeoutResult, hex]
    · have ht := h t hex
      simp [monitorDownloadWithTimeoutResult, hex, ht]

/-- Witness for C7 at a five-minute budget and a subprocess that never
exits. -/
theorem c7_timeout_kills_process_and_fails_witness :
    (monitorDownloadWithTimeoutResult 300000 ⟨none, true, "", none⟩ []).1 = true
    ∧ (monitorDownloadWithTimeoutResult 300000 ⟨none, true, "", none⟩ []).2
        = Except.error "Download timeout" := by
  have h := c7_timeout_kills_process_and_fails 300000 ⟨none, true, "", none⟩ []
    (fun t ht => by cases ht)
  exact ⟨h.1, h.2.1⟩

/-! ## C8: degraded-quality retry -/

/-- Spawn argument vectors of a trace, in order of invocation. -/
def spawnArgsOf (t : List Effect) : List (List String) :=
  t.filterMap (fun e => match e with | Effect.spawn a => some a | _ => none)

/-- A part_004 oracle whose first attempt throws and whose second attempt
succeeds: the retry path with the degraded resolution ladder is exercised. -/
def c8RetryOracle : Part004Oracle :=
  { envFailure := none, attemptChunks := fun _ => [],
    attemptOutcome := fun n =>
      if n = 1 then AttemptOutcome.threw "Download failed: network error"
      else AttemptOutcome.succeeded "/tmp/video_file_ok.mp4",
    fileSize := 5000000, fileHeader := mp4Header, uploadOk := true,
    uploadErrorText := "", signUrlOk := true,
    signedUrl := "https://signed.example/u", jobId := "job-4", timestampMs := 0 }

/-- A part_004 oracle whose every attempt throws: the loop exhausts its three
attempts. -/
def c8AllFailOracle : Part004Oracle :=
  { envFailure := none, attemptChunks := fun _ => [],
    attemptOutcome := fun _ => AttemptOutcome.threw "Download failed: network error",
    fileSize := 0, fileHeader := [], uploadOk := true, uploadErrorText := "",
    signUrlOk := true, signedUrl := "", jobId := "job-5", timestampMs := 0 }

/-- C8 (code bug): the catch block of `executeDownloadWithValidation` walks
the documented quality ladder (`degradeResolution "1080p" = "720p"`), but
`ytDlpArgs` is built once before the retry loop and never rebuilt, so on a
1080p job whose first attempt fails the second subprocess invocation is
launched with exactly the original 1080p argument vector — which differs
from the 720p command the degraded resolution would produce.  The attempt
count itself is bounded as claimed: with every attempt failing, exactly
three spawns occur and the loop surfaces
`Download failed after 3 attempts`. -/
theorem c8_retry_reuses_original_command :
    degradeResolution "1080p" = "720p"
  ∧ spawnArgsOf (executeDownloadWithValidation c8RetryOracle
      (buildEnhancedDownloadCommand "https://example.com/v" "1080p" "both") "1080p").1
      = [buildEnhancedDownloadCommand "https://example.com/v" "1080p" "both",
         buildEnhancedDownloadCommand "https://example.com/v" "1080p" "both"]
  ∧ buildEnhancedDownloadCommand "https://example.com/v" "720p" "both"
      ≠ buildEnhancedDownloadCommand "https://example.com/v" "1080p" "both"
  ∧ (spawnArgsOf (executeDownloadWithValidation c8AllFailOracle
      (buildEnhancedDownloadCommand "https://example.com/v" "1080p" "both") "1080p").1).length
      = 3
  ∧ (executeDownloadWithValidation c8AllFailOracle
      (buildEnhancedDownloadCommand "https://example.com/v" "1080p" "both") "1080p").2
      = Except.error "Download failed after 3 attempts" := by
  refine ⟨by decide, by decide, by decide, by decide, by decide⟩

/-! ## C10: locator name-length filter -/

/-- An index.ts oracle for a run that leaves exactly one valid artifact named
`a.mp4` (5 MB) in the output directory. -/
def c10Oracle : IndexOracle :=
  { ytDlpAvailable := true, availableHeights := [], monitorChunks := [],
    exitSuccess := true, stderrText := "", dir := [⟨"a.mp4", 5000000, 0⟩],
    uploadOk := true, uploadErrorText := "", signUrlOk := true,
    signedUrl := "https://signed.example/u", jobId := "job-6", timestampMs := 0 }

/-- C10: both artifact locators only consider files whose name is strictly
longer than 10 characters and does not start with a dot; consequently, for a
directory holding only `a.mp4` — a correctly-extensioned 5 MB artifact well
above every size floor — `findAndValidateDownloadedFile` throws the
no-file-found error, `findValidDownloadedFile` returns null, and the
index.ts pipeline marks the job failed with the no-file-found message even
though a valid artifact exists on disk. -/
theorem c10_locator_skips_short_names :
    (∀ (format : String) (dir : List DirEntryFile) (f : DirEntryFile),
        f ∈ locatorCandidates format dir →
          10 < f.name.length ∧ strStartsWith f.name "." = false)
  ∧ (∀ (dir : List DirEntryFile) (f : DirEntryFile),
        f ∈ findValidCandidates dir →
          10 < f.name.length ∧ strStartsWith f.name "." = false)
  ∧ strEndsWith "a.mp4" ".mp4" = true
  ∧ (1000 ≤ 5000000 ∧ 1000000 ≤ 5000000)
  ∧ findAndValidateDownloadedFile "both" [⟨"a.mp4", 5000000, 0⟩]
      = Except.error "No downloaded file found matching requested format"
  ∧ findValidDownloadedFile [⟨"a.mp4", 5000000, 0⟩] = none
  ∧ failedUpdate "No downloaded file found matching requested format"
      ∈ indexServeTrace c10Oracle "https://example.com/v" "1080p_both"
  ∧ finalStatus (indexServeTrace c10Oracle "https://example.com/v" "1080p_both")
      = JobStatus.failed := by
  refine ⟨?_, ?_, by decide, by decide, by decide, by decide, by decide, by decide⟩
  · intro format dir f hf
    rw [locatorCandidates, List.mem_filter] at hf
    have hp := hf.2
    simp only [Bool.and_eq_true, Bool.not_eq_true', decide_eq_true_eq] at hp
    exact ⟨hp.2, hp.1.2⟩
  · intro dir f hf
    rw [findValidCandidates, List.mem_filter] at hf
    have hp := hf.2
    simp only [Bool.and_eq_true, Bool.not_eq_true', decide_eq_true_eq] at hp
    exact ⟨hp.1.2, hp.1.1.2⟩

/-- Witness for C10 at a concrete candidate that does pass the filter. -/
theorem c10_locator_skips_short_names_witness :
    10 < ("long_video_file.mp4" : String).length
    ∧ strStartsWith "long_video_file.mp4" "." = false :=
  (c10_locator_skips_short_names).1 "both" [⟨"long_video_file.mp4", 5000, 0⟩]
    ⟨"long_video_file.mp4", 5000, 0⟩ (by decide)

end DL
